import Mathlib

/-!
Verification development for the `Data_Handler` module (`data_handler.py`),
a pandas-based data-access layer with four retrieval pipelines
(HDI, IDMC, World Bank, GIDD).

Embedding conventions:
* Strings (column names, cell text, URLs) are lists of Unicode code points
  (`Str := List Nat`), built from Lean string literals with `nm`.
* A pandas `DataFrame` is a `Table`: a list of column names, a row index
  (pandas row labels), and rows as lists of cells aligned with the columns.
* Cells are integers, strings or the null/NaN marker (`Cell`); floating
  point values do not occur in the properties under study.
* Fallible pandas operations (column access / selection of a missing
  column, `astype(int)` on an unparseable string) return `Except DErr`.
-/

set_option maxHeartbeats 1000000

namespace DataHandler

/-- Code-point string. -/
abbrev Str := List Nat

/-- Build a code-point string from a Lean string literal. -/
def nm (s : String) : Str := s.data.map Char.toNat

/-- A table cell: integer, text, or the null/NaN marker. -/
inductive Cell where
  | int (n : Int)
  | str (s : Str)
  | null
deriving DecidableEq, Repr

/-- A pandas DataFrame: column names, row labels (the index), and rows
aligned positionally with the column list. -/
structure Table where
  cols : List Str
  index : List Nat
  rows : List (List Cell)
deriving DecidableEq, Repr

/-- Errors surfaced by the pipelines: a missing column (pandas `KeyError`)
or an unparseable integer (`ValueError` from `astype(int)`). -/
inductive DErr where
  | keyError (col : Str)
  | parseError (s : Str)
deriving DecidableEq, Repr

/-! ### Column-name normalization
`df.columns.str.strip().str.lower().str.replace(" ", "_")`, modelled at the
code-point level: strip Unicode whitespace at both ends, lower-case
(ASCII `A`–`Z`, the range the relevant headers use), replace each space
(code 32) by an underscore (code 95). -/

/-- Python `str.strip` whitespace set (code points). -/
def isWsN (n : Nat) : Bool :=
  n == 9 || n == 10 || n == 11 || n == 12 || n == 13 ||
  n == 28 || n == 29 || n == 30 || n == 31 || n == 32 ||
  n == 133 || n == 160 || n == 5760 ||
  (8192 ≤ n && n ≤ 8202) || n == 8232 || n == 8233 ||
  n == 8239 || n == 8287 || n == 12288

/-- Lower-case one code point (`str.lower`, ASCII letters). -/
def pyLowerN (n : Nat) : Nat := if 65 ≤ n ∧ n ≤ 90 then n + 32 else n

/-- Replace a space by an underscore (`str.replace(" ", "_")`, pointwise). -/
def replOne (n : Nat) : Nat := if n = 32 then 95 else n

/-- Python `str.strip`: drop leading and trailing whitespace. -/
def stripN (l : Str) : Str :=
  (((l.dropWhile isWsN).reverse.dropWhile isWsN).reverse)

/-- One column name through `.str.strip().str.lower().str.replace(" ", "_")`. -/
def normalizeNameN (l : Str) : Str :=
  ((stripN l).map pyLowerN).map replOne

/-- Normalize every column name of a table. -/
def normalizeCols (t : Table) : Table :=
  { t with cols := t.cols.map normalizeNameN }

/-! ### Integer parsing (Python `int(...)` on a decimal string) -/

/-- Decimal digit code point. -/
def isDigitN (n : Nat) : Bool := 48 ≤ n && n ≤ 57

/-- Digit-list value. -/
def digitsVal (l : Str) : Nat := l.foldl (fun acc d => acc * 10 + (d - 48)) 0

/-- Python `int(s)` for a decimal string: optional surrounding whitespace,
optional sign, then one or more digits; anything else raises (here `none`). -/
def pyParseIntN (l : Str) : Option Int :=
  match stripN l with
  | 43 :: rest =>
      if rest ≠ [] ∧ rest.all isDigitN then some (digitsVal rest) else none
  | 45 :: rest =>
      if rest ≠ [] ∧ rest.all isDigitN then some (-(digitsVal rest : Int)) else none
  | core =>
      if core ≠ [] ∧ core.all isDigitN then some (digitsVal core) else none

/-! ### Column access and selection -/

/-- Positions (from offset `k`) at which column name `n` occurs. -/
def colIdxsAux (cols : List Str) (n : Str) (k : Nat) : List Nat :=
  match cols with
  | [] => []
  | c :: rest => if c = n then k :: colIdxsAux rest n (k + 1) else colIdxsAux rest n (k + 1)

/-- Positions at which column name `n` occurs. -/
def colIdxs (cols : List Str) (n : Str) : List Nat := colIdxsAux cols n 0

/-- The cell of row `r` in the (first) column named `n`, null if absent. -/
def cellAt (cols : List Str) (r : List Cell) (n : Str) : Cell :=
  match (colIdxs cols n).head? with
  | some i => r.getD i Cell.null
  | none => Cell.null

/-- `df[names]`: select the named columns, in the given order; `KeyError`
on the first requested name absent from the table.  The row index is
preserved. -/
def selectCols (t : Table) (names : List Str) : Except DErr Table :=
  match names.find? (fun n => !(t.cols.contains n)) with
  | some n => .error (.keyError n)
  | none =>
      let idxs := names.flatMap (fun n => colIdxs t.cols n)
      .ok { cols := idxs.map (fun i => t.cols.getD i []),
            index := t.index,
            rows := t.rows.map (fun r => idxs.map (fun i => r.getD i Cell.null)) }

/-- `df[mask]`: keep the rows satisfying the predicate; surviving rows keep
their index labels. -/
def filterRows (t : Table) (p : List Cell → Bool) : Table :=
  let kept := (t.index.zip t.rows).filter (fun z => p z.2)
  { cols := t.cols, index := kept.map (fun z => z.1), rows := kept.map (fun z => z.2) }

/-- `df[df[col] ...]`: filter on a cell predicate over a named column;
pandas raises `KeyError` when the column is absent. -/
def filterByCol (t : Table) (col : Str) (p : Cell → Bool) : Except DErr Table :=
  if t.cols.contains col then
    .ok (filterRows t (fun r => p (cellAt t.cols r col)))
  else .error (.keyError col)

/-- `df.reset_index(drop=True)`. -/
def resetIndex (t : Table) : Table :=
  { t with index := List.range t.rows.length }

/-- `df.rename(columns=mapping)`: names that are keys of the association
list are replaced by their values, others are kept. -/
def renameCols (t : Table) (m : List (Str × Str)) : Table :=
  { t with cols := t.cols.map (fun c => ((m.find? (fun kv => kv.1 = c)).map (fun kv => kv.2)).getD c) }

/-- `pd.to_numeric(x, errors="coerce").astype("Int64")` on one cell:
integers pass through, numeric strings parse, anything else becomes null. -/
def coerceCell (c : Cell) : Cell :=
  match c with
  | .int n => .int n
  | .str s => match pyParseIntN s with
      | some n => .int n
      | none => .null
  | .null => .null

/-- `df["year"] = pd.to_numeric(df["year"], errors="coerce").astype("Int64")`:
`KeyError` when the `year` column is absent. -/
def yearCoerce (t : Table) : Except DErr Table :=
  match (colIdxs t.cols (nm "year")).head? with
  | none => .error (.keyError (nm "year"))
  | some i => .ok { t with rows := t.rows.map (fun r => r.set i (coerceCell (r.getD i Cell.null))) }

/-- Truthiness of an optional integer parameter (`if start_year:`):
`None` and `0` are falsy. -/
def pyTruthyInt (o : Option Int) : Bool :=
  match o with
  | some n => n != 0
  | none => false

/-- Truthiness of an optional string parameter (`if hazard_category_name:`):
`None` and the empty string are falsy. -/
def pyTruthyStr (o : Option Str) : Bool :=
  match o with
  | some l => !l.isEmpty
  | none => false

/-! ### HDI pipeline: `reshape_long_HDI` and `get_data_HDI` -/

/-- `id_vars = ['iso3', 'country', 'region']`. -/
def hdiIdVars : List Str := [nm "iso3", nm "country", nm "region"]

/-- Positions of the value columns: columns whose name starts with
`<key>_` for some key of the indicator dictionary. -/
def hdiValueIdxs (cols : List Str) (indicators : List (Str × Str)) : List Nat :=
  (List.range cols.length).filter
    (fun i => indicators.any (fun kv => (kv.1 ++ [95]).isPrefixOf (cols.getD i [])))

/-- Suffix of a name after its last underscore (`str.rsplit('_', n=1)`). -/
def rsplitSuffix (l : Str) : Str := (l.reverse.takeWhile (fun n => n ≠ 95)).reverse

/-- Part of a name before its last underscore. -/
def rsplitStem (l : Str) : Str := l.take (l.length - (rsplitSuffix l).length - 1)

/-- One melted row for source row `r` and value-column position `ix`:
identity cells, the `metric_year` string (the column name), the value. -/
def meltRow (cols : List Str) (ix : Nat) (r : List Cell) : List Cell :=
  hdiIdVars.map (fun n => cellAt cols r n) ++ [Cell.str (cols.getD ix []), r.getD ix Cell.null]

/-- Split a melted row's `metric_year` and parse the year
(`astype(int)`: `ValueError`, here `parseError`, on an unparseable
suffix).  Appends the `metric` and `year` cells. -/
def splitYearRow (r : List Cell) : Except DErr (List Cell) :=
  match r.getD 3 Cell.null with
  | .str my =>
      match pyParseIntN (rsplitSuffix my) with
      | some y => .ok (r ++ [Cell.str (rsplitStem my), Cell.int y])
      | none => .error (.parseError (rsplitSuffix my))
  | _ => .error (.parseError [])

/-- Append the `metric_name` cell: the metric looked up in the indicator
dictionary, null when absent. -/
def metricNameRow (indicators : List (Str × Str)) (r : List Cell) : List Cell :=
  r ++ [match r.getD 4 Cell.null with
        | .str m => (((indicators.find? (fun kv => kv.1 = m)).map
            (fun kv => Cell.str kv.2)).getD Cell.null)
        | _ => Cell.null]

/-- Output column list of the reshape. -/
def hdiLongCols : List Str :=
  hdiIdVars ++ [nm "value", nm "metric", nm "year", nm "metric_name"]

/-- `Data_Handler.reshape_long_HDI(df, indicators)`: melt the selected
wide columns into long format, split `metric_year` on the last
underscore, parse the year as an integer, attach the readable metric
name.  `KeyError` when an `id_vars` column is missing (pandas `melt`);
`parseError` when a year suffix is not an integer. -/
def reshape_long_HDI (df : Table) (indicators : List (Str × Str)) : Except DErr Table :=
  match hdiIdVars.find? (fun n => !(df.cols.contains n)) with
  | some n => .error (.keyError n)
  | none => do
      let vidxs := hdiValueIdxs df.cols indicators
      let melted := vidxs.flatMap (fun ix => df.rows.map (fun r => meltRow df.cols ix r))
      let withYear ← melted.mapM splitYearRow
      let dropped := withYear.map (fun r => r.take 3 ++ r.drop 4)
      let rows := dropped.map (fun r => metricNameRow indicators r)
      .ok { cols := hdiLongCols, index := List.range rows.length, rows := rows }

/-- Country filter of `get_data_HDI`: case-insensitive membership of the
`country` cell in the requested list (applied whenever the parameter is
not `None`, even for an empty list). -/
def hdiCountryPred (countries : List Str) (c : Cell) : Bool :=
  match c with
  | .str s => (countries.map (fun x => x.map pyLowerN)).contains (s.map pyLowerN)
  | _ => false

/-- Inclusive lower-bound predicate on a year cell. -/
def geYearPred (b : Int) (c : Cell) : Bool :=
  match c with
  | .int n => b ≤ n
  | _ => false

/-- Inclusive upper-bound predicate on a year cell. -/
def leYearPred (b : Int) (c : Cell) : Bool :=
  match c with
  | .int n => n ≤ b
  | _ => false

/-- Year lower-bound filter with `is not None` semantics (HDI, WB). -/
def optStartFilter (col : Str) (b : Option Int) (t : Table) : Table :=
  match b with
  | some v => filterRows t (fun r => geYearPred v (cellAt t.cols r col))
  | none => t

/-- Year upper-bound filter with `is not None` semantics (HDI, WB). -/
def optEndFilter (col : Str) (b : Option Int) (t : Table) : Table :=
  match b with
  | some v => filterRows t (fun r => leYearPred v (cellAt t.cols r col))
  | none => t

/-- Country filter of `get_data_HDI` (applied whenever not `None`). -/
def hdiCountriesFilter (countries : Option (List Str)) (t : Table) : Table :=
  match countries with
  | some cs => filterRows t (fun r => hdiCountryPred cs (cellAt t.cols r (nm "country")))
  | none => t

/-- `Data_Handler.get_data_HDI(filepath, indicators, countries,
start_year, end_year)`, with the parsed CSV supplied as `raw`.  Year
bounds are applied when `is not None`. -/
def get_data_HDI (raw : Table) (indicators : List (Str × Str))
    (countries : Option (List Str)) (start_year end_year : Option Int) :
    Except DErr Table := do
  let long ← reshape_long_HDI (normalizeCols raw) indicators
  .ok (resetIndex
    (optEndFilter (nm "year") end_year
      (optStartFilter (nm "year") start_year
        (hdiCountriesFilter countries long))))

/-! ### IDMC pipeline: `get_data_IDMC` -/

/-- The `indicators` parameter: `None`/`"all"` keep every column, an
explicit dictionary selects and renames. -/
inductive IndSpec where
  | all
  | sel (m : List (Str × Str))
deriving DecidableEq, Repr

/-- `base_cols = ["iso3", "start_date", "year"]` (IDMC order). -/
def idmcBase : List Str := [nm "iso3", nm "start_date", nm "year"]

/-- Case-insensitive equality of a text cell with a parameter string
(`df[col].str.lower() == value.lower()`); non-text cells compare false. -/
def ciEqPred (v : Str) (c : Cell) : Bool :=
  match c with
  | .str s => s.map pyLowerN == v.map pyLowerN
  | _ => false

/-- Membership of a text cell in a list of strings (`df[col].isin(vs)`). -/
def isinPred (vs : List Str) (c : Cell) : Bool :=
  match c with
  | .str s => vs.contains s
  | _ => false

/-- `if iso3: df = df[df["iso3"].isin(iso3)]` — truthiness: `None` and the
empty list skip the filter. -/
def iso3Step (iso3 : Option (List Str)) (t : Table) : Except DErr Table :=
  match iso3 with
  | some (v :: vs) => filterByCol t (nm "iso3") (isinPred (v :: vs))
  | _ => .ok t

/-- `if start_year: df = df[df["year"] >= start_year]` — truthiness:
`None` and `0` skip the filter. -/
def startYearStep (col : Str) (b : Option Int) (t : Table) : Except DErr Table :=
  if pyTruthyInt b then filterByCol t col (geYearPred (b.getD 0)) else .ok t

/-- `if end_year: df = df[df["year"] <= end_year]`. -/
def endYearStep (col : Str) (b : Option Int) (t : Table) : Except DErr Table :=
  if pyTruthyInt b then filterByCol t col (leYearPred (b.getD 0)) else .ok t

/-- Case-insensitive hazard filter — truthiness: `None` and the empty
string skip the filter. -/
def hazardStep (col : Str) (v : Option Str) (t : Table) : Except DErr Table :=
  match v with
  | some (x :: xs) => filterByCol t col (ciEqPred (x :: xs))
  | _ => .ok t

/-- IDMC indicator handling: keep everything (base columns first) or
select `base_cols + keys` and rename to the display names. -/
def idmcSelect (indicators : IndSpec) (t : Table) : Except DErr Table :=
  match indicators with
  | .all => selectCols t (idmcBase ++ t.cols.filter (fun c => !(idmcBase.contains c)))
  | .sel m => do
      let d ← selectCols t (idmcBase ++ m.map (fun kv => kv.1))
      .ok (renameCols d m)

/-- `Data_Handler.get_data_IDMC(filepath, indicators, iso3, start_year,
end_year, hazard_category_name, hazard_type_name)`, with the parsed CSV
supplied as `raw`.  The `iso3`, `start_year`, `end_year` and hazard
filters are applied only when the parameter is truthy in Python
(`if iso3:`, `if start_year:`, ...). -/
def get_data_IDMC (raw : Table) (indicators : IndSpec)
    (iso3 : Option (List Str)) (start_year end_year : Option Int)
    (hazard_category_name hazard_type_name : Option Str) :
    Except DErr Table := do
  let df ← yearCoerce (normalizeCols raw)
  let df ← iso3Step iso3 df
  let df ← startYearStep (nm "year") start_year df
  let df ← endYearStep (nm "year") end_year df
  let df ← hazardStep (nm "hazard_category_name") hazard_category_name df
  let df ← hazardStep (nm "hazard_type_name") hazard_type_name df
  let df ← idmcSelect indicators df
  .ok (resetIndex df)

/-! ### World Bank pipeline: `get_data_WB`
The external `wbdata.get_data` call is a collaborator; the model takes the
fetched record list per indicator code as a function parameter. -/

/-- One record of `wbdata.get_data`: the fields the code reads.  The code
applies `int(record['date'])`; the claims under study concern records with
integer dates, so the date is carried as an integer. -/
structure WBRec where
  date : Int
  value : Cell
  country : Str
  countryiso3code : Option Str
  countryId : Str
deriving DecidableEq, Repr

/-- The row dict built per record: Country, ISO3 (falling back to the
nested country id when `countryiso3code` is absent), Year, value. -/
def mkWBRow (r : WBRec) : List Cell :=
  [Cell.str r.country, Cell.str (r.countryiso3code.getD r.countryId),
   Cell.int r.date, r.value]

/-- `pd.DataFrame(rows)` for one indicator: with no records the frame has
no columns (as in pandas); otherwise Country, ISO3, Year and the
indicator's display name. -/
def mkWBTable (name : Str) (records : List WBRec) : Table :=
  { cols := if records.isEmpty then []
            else [nm "Country", nm "ISO3", nm "Year", name],
    index := List.range records.length,
    rows := records.map mkWBRow }

/-- `pd.merge(left, right, on=['Country','ISO3','Year'], how='outer')` for
tables whose first three columns are the keys and whose value columns are
disjoint.  Multiplicities follow pandas (every key match pairs up; an
unmatched row of either side appears once, padded with nulls); pandas
additionally sorts the keys of an outer merge, which none of the claims
depend on.  The merged frame gets a fresh dense index. -/
def mergeOuter (L R : Table) : Table :=
  let leftPart := L.rows.flatMap (fun lr =>
    match R.rows.filter (fun rr => rr.take 3 == lr.take 3) with
    | [] => [lr ++ List.replicate (R.cols.length - 3) Cell.null]
    | ms => ms.map (fun rr => lr ++ rr.drop 3))
  let rightPart := (R.rows.filter
      (fun rr => L.rows.all (fun lr => !(rr.take 3 == lr.take 3)))).map
    (fun rr => rr.take 3 ++ List.replicate (L.cols.length - 3) Cell.null ++ rr.drop 3)
  let rows := leftPart ++ rightPart
  { cols := L.cols ++ R.cols.drop 3,
    index := List.range rows.length,
    rows := rows }

/-- Final column order request of `get_data_WB`. -/
def wbColOrder (indicators : List (Str × Str)) : List Str :=
  [nm "Country", nm "ISO3", nm "Year"] ++ indicators.map (fun kv => kv.2)

/-- `df[[c for c in cols if c in df.columns]]`: total column selection
that silently drops requested names absent from the table. -/
def selectPresent (t : Table) (names : List Str) : Table :=
  let idxs := (names.filter (fun n => t.cols.contains n)).flatMap (fun n => colIdxs t.cols n)
  { cols := idxs.map (fun i => t.cols.getD i []),
    index := t.index,
    rows := t.rows.map (fun r => idxs.map (fun i => r.getD i Cell.null)) }

/-- `Data_Handler.get_data_WB(indicators, countries, start_year,
end_year)`: build one table per indicator from the fetched records,
outer-merge them on (Country, ISO3, Year), filter by the year range
(`is not None` semantics), reorder the columns.  The index is **not**
reset before returning. -/
def get_data_WB (indicators : List (Str × Str)) (fetch : Str → List WBRec)
    (start_year end_year : Option Int) : Table :=
  let all_data := indicators.map (fun kv => mkWBTable kv.2 (fetch kv.1))
  let df := match all_data with
    | [] => { cols := wbColOrder indicators, index := [], rows := [] }
    | t :: ts => ts.foldl mergeOuter t
  selectPresent
    (optEndFilter (nm "Year") end_year
      (optStartFilter (nm "Year") start_year df))
    (wbColOrder indicators)

/-! ### GIDD pipeline: paginated fetch and `get_data_GIDD` -/

/-- A record of a GIDD `results` array: a JSON object, modelled as an
association list from field names to cells. -/
abbrev GRecord := List (Str × Cell)

/-- One API page: its `results` array and its `next` field (`none` models
an absent or null `next`). -/
structure GiddPage where
  results : List GRecord
  next : Option Str
deriving DecidableEq, Repr

/-- Truthiness of the `next` field (`if js.get("next"):`): absent, null
and the empty string are falsy. -/
def truthyNext (o : Option Str) : Bool :=
  match o with
  | some u => !u.isEmpty
  | none => false

/-- An HTTP GET request as issued by the loop: URL and query parameters. -/
structure Request where
  url : Str
  params : List (Str × Cell)
deriving DecidableEq, Repr

/-- The fixed GIDD endpoint. -/
def giddBaseUrl : Str := nm "https://helix-tools-api.idmcdb.org/external-api/gidd/disasters/"

/-- The while loop's record accumulation over the observed page sequence:
append each page's `results`; continue only while `next` is truthy. -/
def giddCollect (pages : List GiddPage) : List GRecord :=
  match pages with
  | [] => []
  | p :: rest => p.results ++ (if truthyNext p.next then giddCollect rest else [])

/-- The follow-up requests issued by the loop: each truthy `next` URL is
requested verbatim with an empty parameter dict (`params = {}`). -/
def giddNextRequests (pages : List GiddPage) : List Request :=
  match pages with
  | [] => []
  | p :: rest =>
      match p.next with
      | some u => if u.isEmpty then [] else { url := u, params := [] } :: giddNextRequests rest
      | none => []

/-- All requests of one `get_data_GIDD` call: the initial request with
`client_id` and `limit`, then the `next`-URL requests. -/
def giddRequests (client_id : Str) (limit : Int) (pages : List GiddPage) : List Request :=
  { url := giddBaseUrl,
    params := [(nm "client_id", Cell.str client_id), (nm "limit", Cell.int limit)] }
    :: giddNextRequests pages

/-- `pd.DataFrame(all_records)` for a list of JSON objects: columns are
the union of the objects' keys in first-appearance order; a missing key
yields a null cell. -/
def unionKeys (acc : List Str) (r : GRecord) : List Str :=
  r.foldl (fun a kv => if a.contains kv.1 then a else a ++ [kv.1]) acc

/-- Build the assembled DataFrame from the concatenated records. -/
def mkDF (records : List GRecord) : Table :=
  let cols := records.foldl unionKeys []
  { cols := cols,
    index := List.range records.length,
    rows := records.map (fun r =>
      cols.map (fun c => (((r.find? (fun kv => kv.1 = c)).map (fun kv => kv.2)).getD Cell.null))) }

/-- The `iso3` parameter of `get_data_GIDD`: `None`, the literal `"all"`,
or an explicit list of codes (a single string is wrapped into a list). -/
inductive GiddIso where
  | noCodes
  | allCodes
  | codes (l : List Str)
deriving DecidableEq, Repr

/-- The `indicators` parameter of `get_data_GIDD`: `None`/`"all"` keep all
columns; an explicit dictionary selects `base_cols + list(indicators)` —
the mapping's *keys* — without renaming. -/
inductive GiddInd where
  | all
  | sel (m : List (Str × Str))
deriving DecidableEq, Repr

/-- `base_cols = ["iso3", "year", "start_date"]` (GIDD order). -/
def giddBase : List Str := [nm "iso3", nm "year", nm "start_date"]

/-- `Data_Handler.get_data_GIDD(client_id, limit, iso3, start_year,
end_year, hazard_category_name, hazard_type_name, indicators)`, with the
API's observed page sequence supplied as `pages`.  Records are collected
by the pagination loop, assembled into a frame, columns normalized, the
year coerced (`KeyError` when absent), filters applied (`iso3` member
strings are stripped; year bounds use Python truthiness), and the
indicator columns selected without renaming. -/
def giddIso3Step (iso3 : GiddIso) (t : Table) : Except DErr Table :=
  match iso3 with
  | .codes l => filterByCol t (nm "iso3") (isinPred (l.map stripN))
  | _ => .ok t

/-- GIDD indicator handling: keep all columns, or select
`base_cols + list(indicators)` (the mapping keys) without renaming. -/
def giddSelect (indicators : GiddInd) (t : Table) : Except DErr Table :=
  match indicators with
  | .all => .ok t
  | .sel m => selectCols t (giddBase ++ m.map (fun kv => kv.1))

def get_data_GIDD (pages : List GiddPage) (iso3 : GiddIso)
    (start_year end_year : Option Int)
    (hazard_category_name hazard_type_name : Option Str)
    (indicators : GiddInd) : Except DErr Table := do
  let df ← yearCoerce (normalizeCols (mkDF (giddCollect pages)))
  let df ← giddIso3Step iso3 df
  let df ← startYearStep (nm "year") start_year df
  let df ← endYearStep (nm "year") end_year df
  let df ← hazardStep (nm "hazard_category_name") hazard_category_name df
  let df ← hazardStep (nm "hazard_type_name") hazard_type_name df
  let df ← giddSelect indicators df
  .ok (resetIndex df)

/-! ### Lemmas: pipeline plumbing -/

theorem bind_ok_iff {α β : Type} {x : Except DErr α} {f : α → Except DErr β} {b : β} :
    (x >>= f) = .ok b ↔ ∃ a, x = .ok a ∧ f a = .ok b := by
  cases x <;> simp [Bind.bind, Except.bind]

theorem filterRows_cols (t : Table) (p : List Cell → Bool) :
    (filterRows t p).cols = t.cols := rfl

theorem filterRows_mem {t : Table} {p : List Cell → Bool} {r : List Cell}
    (h : r ∈ (filterRows t p).rows) : r ∈ t.rows ∧ p r = true := by
  unfold filterRows at h
  simp only [List.mem_map] at h
  obtain ⟨z, hz, hzr⟩ := h
  rw [List.mem_filter] at hz
  obtain ⟨hz1, hz2⟩ := hz
  subst hzr
  exact ⟨(List.of_mem_zip hz1).2, hz2⟩

theorem filterByCol_ok_cols {t : Table} {c : Str} {p : Cell → Bool} {u : Table}
    (h : filterByCol t c p = .ok u) : u.cols = t.cols := by
  unfold filterByCol at h
  split at h
  · cases h
    rfl
  · cases h

theorem filterByCol_ok_mem {t : Table} {c : Str} {p : Cell → Bool} {u : Table}
    {r : List Cell} (h : filterByCol t c p = .ok u) (hr : r ∈ u.rows) :
    r ∈ t.rows ∧ p (cellAt t.cols r c) = true := by
  unfold filterByCol at h
  split at h
  · cases h
    exact filterRows_mem hr
  · cases h

theorem filterByCol_ok_contains {t : Table} {c : Str} {p : Cell → Bool} {u : Table}
    (h : filterByCol t c p = .ok u) : t.cols.contains c = true := by
  unfold filterByCol at h
  split at h
  · assumption
  · cases h

theorem filterByCol_err {t : Table} {c : Str} {p : Cell → Bool}
    (h : t.cols.contains c = false) : filterByCol t c p = .error (.keyError c) := by
  unfold filterByCol
  rw [h]
  rfl

theorem iso3Step_ok {i : Option (List Str)} {t u : Table}
    (h : iso3Step i t = .ok u) : u.cols = t.cols ∧ ∀ r ∈ u.rows, r ∈ t.rows := by
  unfold iso3Step at h
  split at h
  · exact ⟨filterByCol_ok_cols h, fun r hr => (filterByCol_ok_mem h hr).1⟩
  · cases h
    exact ⟨rfl, fun r hr => hr⟩

theorem giddIso3Step_ok {i : GiddIso} {t u : Table}
    (h : giddIso3Step i t = .ok u) : u.cols = t.cols ∧ ∀ r ∈ u.rows, r ∈ t.rows := by
  unfold giddIso3Step at h
  split at h
  · exact ⟨filterByCol_ok_cols h, fun r hr => (filterByCol_ok_mem h hr).1⟩
  · cases h
    exact ⟨rfl, fun r hr => hr⟩

theorem startYearStep_ok {col : Str} {b : Option Int} {t u : Table}
    (h : startYearStep col b t = .ok u) : u.cols = t.cols ∧ ∀ r ∈ u.rows, r ∈ t.rows := by
  unfold startYearStep at h
  split at h
  · exact ⟨filterByCol_ok_cols h, fun r hr => (filterByCol_ok_mem h hr).1⟩
  · cases h
    exact ⟨rfl, fun r hr => hr⟩

theorem endYearStep_ok {col : Str} {b : Option Int} {t u : Table}
    (h : endYearStep col b t = .ok u) : u.cols = t.cols ∧ ∀ r ∈ u.rows, r ∈ t.rows := by
  unfold endYearStep at h
  split at h
  · exact ⟨filterByCol_ok_cols h, fun r hr => (filterByCol_ok_mem h hr).1⟩
  · cases h
    exact ⟨rfl, fun r hr => hr⟩

theorem hazardStep_ok {col : Str} {v : Option Str} {t u : Table}
    (h : hazardStep col v t = .ok u) : u.cols = t.cols ∧ ∀ r ∈ u.rows, r ∈ t.rows := by
  unfold hazardStep at h
  split at h
  · exact ⟨filterByCol_ok_cols h, fun r hr => (filterByCol_ok_mem h hr).1⟩
  · cases h
    exact ⟨rfl, fun r hr => hr⟩

/-- An active (truthy) lower bound filters every surviving row. -/
theorem startYearStep_sound {col : Str} {b : Option Int} {t u : Table}
    (hb : pyTruthyInt b = true) (h : startYearStep col b t = .ok u) :
    ∀ r ∈ u.rows, geYearPred (b.getD 0) (cellAt t.cols r col) = true := by
  unfold startYearStep at h
  rw [if_pos hb] at h
  exact fun r hr => (filterByCol_ok_mem h hr).2

/-- An active (truthy) upper bound filters every surviving row. -/
theorem endYearStep_sound {col : Str} {b : Option Int} {t u : Table}
    (hb : pyTruthyInt b = true) (h : endYearStep col b t = .ok u) :
    ∀ r ∈ u.rows, leYearPred (b.getD 0) (cellAt t.cols r col) = true := by
  unfold endYearStep at h
  rw [if_pos hb] at h
  exact fun r hr => (filterByCol_ok_mem h hr).2

theorem yearCoerce_ok_cols {t u : Table} (h : yearCoerce t = .ok u) : u.cols = t.cols := by
  unfold yearCoerce at h
  split at h
  · cases h
  · cases h
    rfl

/-! ### Lemmas: normalization idempotence -/

theorem dropWhile_eq_self_of_head {p : Nat → Bool} {l : List Nat}
    (h : ∀ x, l.head? = some x → p x = false) : l.dropWhile p = l := by
  cases l with
  | nil => rfl
  | cons a l =>
      rw [List.dropWhile_cons, h a rfl]
      simp

theorem head_dropWhile {p : Nat → Bool} {l : List Nat} {x : Nat}
    (h : (l.dropWhile p).head? = some x) : p x = false := by
  induction l with
  | nil => simp [List.dropWhile] at h
  | cons a l ih =>
      rw [List.dropWhile_cons] at h
      by_cases hpa : p a = true
      · exact ih (by simpa [hpa] using h)
      · rw [if_neg hpa] at h
        simp only [List.head?_cons, Option.some.injEq] at h
        subst h
        simpa using hpa

theorem getLast?_dropWhile {p : Nat → Bool} {l : List Nat}
    (h : l.dropWhile p ≠ []) : (l.dropWhile p).getLast? = l.getLast? := by
  induction l with
  | nil => simp [List.dropWhile] at h
  | cons a l ih =>
      rw [List.dropWhile_cons] at h ⊢
      by_cases hpa : p a = true
      · rw [if_pos hpa] at h ⊢
        have hl : l ≠ [] := by
          intro he
          subst he
          simp [List.dropWhile] at h
        cases l with
        | nil => exact absurd rfl hl
        | cons b l2 => rw [ih h, List.getLast?_cons_cons]
      · simp [hpa]

theorem stripN_head {l : List Nat} {x : Nat}
    (h : (stripN l).head? = some x) : isWsN x = false := by
  unfold stripN at h
  rw [List.head?_reverse] at h
  have hne : (l.dropWhile isWsN).reverse.dropWhile isWsN ≠ [] := by
    intro he
    rw [he] at h
    simp at h
  rw [getLast?_dropWhile hne, List.getLast?_reverse] at h
  exact head_dropWhile h

theorem stripN_getLast {l : List Nat} {x : Nat}
    (h : (stripN l).getLast? = some x) : isWsN x = false := by
  unfold stripN at h
  rw [List.getLast?_reverse] at h
  exact head_dropWhile h

theorem stripN_eq_self {l : List Nat}
    (h1 : ∀ x, l.head? = some x → isWsN x = false)
    (h2 : ∀ x, l.getLast? = some x → isWsN x = false) : stripN l = l := by
  unfold stripN
  rw [dropWhile_eq_self_of_head h1]
  rw [dropWhile_eq_self_of_head (fun x hx => h2 x (by rwa [List.head?_reverse] at hx))]
  exact l.reverse_reverse

/-- Composite per-character action of lower-casing then space replacement. -/
theorem replLower_nonWs {x : Nat} (h : isWsN x = false) :
    isWsN (replOne (pyLowerN x)) = false := by
  simp only [isWsN, Bool.or_eq_false_iff, beq_eq_false_iff_ne, ne_eq,
    Bool.and_eq_false_iff, decide_eq_false_iff_not, not_le] at h ⊢
  simp only [pyLowerN, replOne]
  split_ifs <;> omega

theorem replLower_idem (x : Nat) :
    replOne (pyLowerN (replOne (pyLowerN x))) = replOne (pyLowerN x) := by
  simp only [pyLowerN, replOne]
  split_ifs <;> omega

theorem normalizeNameN_eq_map (l : Str) :
    normalizeNameN l = (stripN l).map (fun x => replOne (pyLowerN x)) := by
  unfold normalizeNameN
  rw [List.map_map]
  rfl

/-- Idempotence of one column name's normalization. -/
theorem normalizeNameN_idem (l : Str) :
    normalizeNameN (normalizeNameN l) = normalizeNameN l := by
  rw [normalizeNameN_eq_map l, normalizeNameN_eq_map]
  have hstrip : stripN ((stripN l).map (fun x => replOne (pyLowerN x)))
      = (stripN l).map (fun x => replOne (pyLowerN x)) := by
    apply stripN_eq_self
    · intro x hx
      rw [List.head?_map] at hx
      rw [Option.map_eq_some'] at hx
      obtain ⟨y, hy, hxy⟩ := hx
      subst hxy
      exact replLower_nonWs (stripN_head hy)
    · intro x hx
      rw [List.getLast?_map] at hx
      rw [Option.map_eq_some'] at hx
      obtain ⟨y, hy, hxy⟩ := hx
      subst hxy
      exact replLower_nonWs (stripN_getLast hy)
  rw [hstrip, List.map_map]
  apply List.map_congr_left
  intro a _
  exact replLower_idem a

/-! ### Lemmas: column positions and selection -/

theorem colIdxsAux_nil_of_not_mem {cols : List Str} {n : Str}
    (h : ¬ n ∈ cols) : ∀ k, colIdxsAux cols n k = [] := by
  induction cols with
  | nil => intro k; rfl
  | cons c rest ih =>
      intro k
      have hc : ¬ c = n := fun he => h (he ▸ List.mem_cons_self c rest)
      show (if c = n then k :: colIdxsAux rest n (k + 1) else colIdxsAux rest n (k + 1)) = []
      rw [if_neg hc]
      exact ih (fun hm => h (List.mem_cons_of_mem c hm)) (k + 1)

/-- Under distinct column names, a present name occurs at exactly one
position, and `colIdxsAux` returns exactly that (offset) position. -/
theorem colIdxs_of_nodup {cols : List Str} {n : Str}
    (hnd : cols.Nodup) (hm : n ∈ cols) :
    ∃ j, j < cols.length ∧ cols.getD j [] = n ∧ ∀ k, colIdxsAux cols n k = [k + j] := by
  induction cols with
  | nil => cases hm
  | cons c rest ih =>
      by_cases hc : c = n
      · subst hc
        refine ⟨0, by simp, rfl, fun k => ?_⟩
        have hnr : ¬ c ∈ rest := (List.nodup_cons.mp hnd).1
        show (if c = c then k :: colIdxsAux rest c (k + 1) else _) = [k + 0]
        rw [if_pos rfl, colIdxsAux_nil_of_not_mem hnr]
        simp
      · have hmr : n ∈ rest := by
          cases List.mem_cons.mp hm with
          | inl he => exact absurd he.symm hc
          | inr hr => exact hr
        obtain ⟨j, hj, hg, hk⟩ := ih (List.nodup_cons.mp hnd).2 hmr
        refine ⟨j + 1, by simpa using hj, by simpa using hg, fun k => ?_⟩
        show (if c = n then k :: colIdxsAux rest n (k + 1) else colIdxsAux rest n (k + 1)) = _
        rw [if_neg hc, hk (k + 1)]
        congr 1
        omega

/-- The head of `colIdxsAux` for a present name is a valid (offset)
position holding that name (no distinctness needed). -/
theorem colIdxsAux_head {cols : List Str} {n : Str} (hm : n ∈ cols) :
    ∀ k, ∃ q, (colIdxsAux cols n k).head? = some (k + q)
      ∧ q < cols.length ∧ cols.getD q [] = n := by
  induction cols with
  | nil => cases hm
  | cons c rest ih =>
      intro k
      by_cases hc : c = n
      · subst hc
        refine ⟨0, ?_, by simp, rfl⟩
        show (if c = c then k :: colIdxsAux rest c (k + 1) else _).head? = some (k + 0)
        rw [if_pos rfl]
        simp
      · have hmr : n ∈ rest := by
          cases List.mem_cons.mp hm with
          | inl he => exact absurd he.symm hc
          | inr hr => exact hr
        obtain ⟨q, hq, hql, hqg⟩ := ih hmr (k + 1)
        refine ⟨q + 1, ?_, by simpa using hql, by simpa using hqg⟩
        show (if c = n then k :: colIdxsAux rest n (k + 1) else colIdxsAux rest n (k + 1)).head? = _
        rw [if_neg hc, hq]
        congr 1
        omega

/-- For a present name, `cellAt` reads the cell at a position holding
that name. -/
theorem cellAt_eq_getD {cols : List Str} {n : Str} (hm : n ∈ cols) (r : List Cell) :
    ∃ q, q < cols.length ∧ cols.getD q [] = n ∧ cellAt cols r n = r.getD q Cell.null := by
  obtain ⟨q, hq, hql, hqg⟩ := colIdxsAux_head hm 0
  refine ⟨q, hql, hqg, ?_⟩
  unfold cellAt colIdxs
  rw [hq]
  show r.getD (0 + q) Cell.null = r.getD q Cell.null
  rw [Nat.zero_add]

theorem selectCols_ok_names {t : Table} {names : List Str} {u : Table}
    (h : selectCols t names = .ok u) : ∀ n ∈ names, n ∈ t.cols := by
  unfold selectCols at h
  split at h
  · cases h
  · intro n hn
    have hfind := List.find?_eq_none.mp (by assumption) n hn
    simp only [Bool.not_eq_true', Bool.not_eq_false] at hfind
    exact List.mem_of_elem_eq_true hfind

theorem selectCols_ok_parts {t : Table} {names : List Str} {u : Table}
    (h : selectCols t names = .ok u) :
    u.cols = (names.flatMap (fun n => colIdxs t.cols n)).map (fun i => t.cols.getD i [])
    ∧ u.index = t.index
    ∧ u.rows = t.rows.map (fun r =>
        (names.flatMap (fun n => colIdxs t.cols n)).map (fun i => r.getD i Cell.null)) := by
  unfold selectCols at h
  split at h
  · cases h
  · cases h
    exact ⟨rfl, rfl, rfl⟩

theorem map_getD_flatMap_colIdxs {cols : List Str} (hnd : cols.Nodup) :
    ∀ (names : List Str), (∀ n ∈ names, n ∈ cols) →
    (names.flatMap (fun n => colIdxs cols n)).map (fun i => cols.getD i []) = names := by
  intro names
  induction names with
  | nil => intro _; rfl
  | cons n rest ih =>
      intro hmem
      rw [List.flatMap_cons, List.map_append,
        ih (fun x hx => hmem x (List.mem_cons_of_mem n hx))]
      obtain ⟨j, hj, hg, hk⟩ := colIdxs_of_nodup hnd (hmem n (List.mem_cons_self n rest))
      unfold colIdxs
      rw [hk 0, List.map_singleton, Nat.zero_add, hg]
      rfl

/-- With distinct source columns, selecting a list of names yields exactly
those names as the result columns. -/
theorem selectCols_ok_cols {t : Table} {names : List Str} {u : Table}
    (hnd : t.cols.Nodup) (h : selectCols t names = .ok u) : u.cols = names := by
  rw [(selectCols_ok_parts h).1]
  exact map_getD_flatMap_colIdxs hnd names (selectCols_ok_names h)

theorem flatMap_colIdxs_eq_map {cols : List Str} (hnd : cols.Nodup) (names : List Str)
    (hmem : ∀ n ∈ names, n ∈ cols) :
    names.flatMap (fun n => colIdxs cols n)
      = names.map (fun n => (colIdxs cols n).headD 0) := by
  induction names with
  | nil => rfl
  | cons n rest ih =>
      rw [List.flatMap_cons, List.map_cons,
        ih (fun x hx => hmem x (List.mem_cons_of_mem n hx))]
      obtain ⟨j, hj, hg, hk⟩ := colIdxs_of_nodup hnd (hmem n (List.mem_cons_self n rest))
      unfold colIdxs
      rw [hk 0]
      rfl

/-- Every row of a `selectCols` result comes from a source row, and for
each requested name reads the same (first-occurrence) cell. -/
theorem selectCols_cellAt {t u : Table} {names : List Str} {r2 : List Cell}
    (hnd : t.cols.Nodup) (h : selectCols t names = .ok u) (hr : r2 ∈ u.rows) :
    ∃ r ∈ t.rows, ∀ n ∈ names, cellAt u.cols r2 n = cellAt t.cols r n := by
  have hmem : ∀ n ∈ names, n ∈ t.cols := selectCols_ok_names h
  have hucols : u.cols = names := selectCols_ok_cols hnd h
  obtain ⟨hcols, hidx, hrows⟩ := selectCols_ok_parts h
  rw [hrows] at hr
  obtain ⟨r, hrm, hre⟩ := List.mem_map.mp hr
  refine ⟨r, hrm, ?_⟩
  intro n hn
  rw [hucols, ← hre]
  obtain ⟨q, hq, hql, hqg⟩ := colIdxsAux_head hn 0
  obtain ⟨j, hj, hg, hk⟩ := colIdxs_of_nodup hnd (hmem n hn)
  have hflat := flatMap_colIdxs_eq_map hnd names hmem
  -- left side: position q of the selected row
  show cellAt names ((names.flatMap (fun n => colIdxs t.cols n)).map
      (fun i => r.getD i Cell.null)) n = cellAt t.cols r n
  unfold cellAt colIdxs
  rw [hq, hk 0]
  show ((names.flatMap (fun n => colIdxs t.cols n)).map
      (fun i => r.getD i Cell.null)).getD (0 + q) Cell.null = r.getD (0 + j) Cell.null
  rw [Nat.zero_add, Nat.zero_add, hflat]
  have hql2 : q < ((names.map (fun n => (colIdxs t.cols n).headD 0)).map
      (fun i => r.getD i Cell.null)).length := by
    rw [List.length_map, List.length_map]
    exact hql
  rw [List.getD_eq_getElem _ _ hql2, List.getElem_map, List.getElem_map]
  have hnq : names[q] = n := by
    rw [← hqg, List.getD_eq_getElem _ _ hql]
  rw [hnq]
  unfold colIdxs
  rw [hk 0, Nat.zero_add]
  rfl

/-! ### Lemmas: pure optional filters (HDI / WB style) -/

theorem resetIndex_cols (t : Table) : (resetIndex t).cols = t.cols := rfl

theorem resetIndex_rows (t : Table) : (resetIndex t).rows = t.rows := rfl

theorem optStartFilter_cols (c : Str) (b : Option Int) (t : Table) :
    (optStartFilter c b t).cols = t.cols := by
  cases b <;> rfl

theorem optEndFilter_cols (c : Str) (b : Option Int) (t : Table) :
    (optEndFilter c b t).cols = t.cols := by
  cases b <;> rfl

theorem hdiCountriesFilter_cols (cs : Option (List Str)) (t : Table) :
    (hdiCountriesFilter cs t).cols = t.cols := by
  cases cs <;> rfl

theorem optStartFilter_mem {c : Str} {b : Option Int} {t : Table} {r : List Cell}
    (h : r ∈ (optStartFilter c b t).rows) : r ∈ t.rows := by
  cases b with
  | none => exact h
  | some v => exact (filterRows_mem h).1

theorem optEndFilter_mem {c : Str} {b : Option Int} {t : Table} {r : List Cell}
    (h : r ∈ (optEndFilter c b t).rows) : r ∈ t.rows := by
  cases b with
  | none => exact h
  | some v => exact (filterRows_mem h).1

theorem hdiCountriesFilter_mem {cs : Option (List Str)} {t : Table} {r : List Cell}
    (h : r ∈ (hdiCountriesFilter cs t).rows) : r ∈ t.rows := by
  cases cs with
  | none => exact h
  | some v => exact (filterRows_mem h).1

theorem optStartFilter_sound {c : Str} {v : Int} {t : Table} {r : List Cell}
    (h : r ∈ (optStartFilter c (some v) t).rows) :
    geYearPred v (cellAt t.cols r c) = true :=
  (filterRows_mem h).2

theorem optEndFilter_sound {c : Str} {v : Int} {t : Table} {r : List Cell}
    (h : r ∈ (optEndFilter c (some v) t).rows) :
    leYearPred v (cellAt t.cols r c) = true :=
  (filterRows_mem h).2

/-- The reshape's output columns are always the fixed long-format list. -/
theorem reshape_ok_cols {df : Table} {ind : List (Str × Str)} {u : Table}
    (h : reshape_long_HDI df ind = .ok u) : u.cols = hdiLongCols := by
  unfold reshape_long_HDI at h
  split at h
  · cases h
  · obtain ⟨wy, hwy, h⟩ := bind_ok_iff.mp h
    injection h with h2
    rw [← h2]

/-! ### Lemmas: GIDD pagination -/

theorem giddCollect_nil {pages : List GiddPage}
    (h : ∀ p ∈ pages, p.results = []) : giddCollect pages = [] := by
  induction pages with
  | nil => rfl
  | cons p rest ih =>
      show p.results ++ (if truthyNext p.next then giddCollect rest else []) = []
      rw [h p (List.mem_cons_self p rest)]
      have hrest : giddCollect rest = [] := ih (fun q hq => h q (List.mem_cons_of_mem p hq))
      rw [hrest, ite_self]
      rfl

theorem giddCollect_concat {pages : List GiddPage}
    (h : ∀ p ∈ pages.dropLast, truthyNext p.next = true) :
    giddCollect pages = pages.flatMap (fun p => p.results) := by
  induction pages with
  | nil => rfl
  | cons p rest ih =>
      cases rest with
      | nil => simp [giddCollect]
      | cons q rest2 =>
          have hp : truthyNext p.next = true := h p (List.mem_cons_self _ _)
          show p.results ++ (if truthyNext p.next then giddCollect (q :: rest2) else []) = _
          rw [if_pos hp, ih (fun x hx => h x (List.mem_cons_of_mem p hx))]
          rfl

theorem giddNextRequests_spec {pages : List GiddPage}
    (h1 : ∀ p ∈ pages.dropLast, truthyNext p.next = true)
    (h2 : ∀ p, pages.getLast? = some p → truthyNext p.next = false) :
    giddNextRequests pages
      = pages.dropLast.map (fun p => { url := p.next.getD [], params := [] }) := by
  induction pages with
  | nil => rfl
  | cons p rest ih =>
      have heq : giddNextRequests (p :: rest)
          = match p.next with
            | some u => if u.isEmpty then []
                else { url := u, params := [] } :: giddNextRequests rest
            | none => [] := rfl
      cases rest with
      | nil =>
          have hp : truthyNext p.next = false := h2 p rfl
          rw [heq]
          cases hn : p.next with
          | none => rfl
          | some u =>
              rw [hn] at hp
              cases u with
              | nil => rfl
              | cons a as => simp [truthyNext] at hp
      | cons q rest2 =>
          have hp : truthyNext p.next = true := h1 p (List.mem_cons_self _ _)
          have hrec := ih (fun x hx => h1 x (List.mem_cons_of_mem p hx))
            (fun x hx => h2 x (by rw [List.getLast?_cons_cons]; exact hx))
          rw [heq]
          cases hn : p.next with
          | none => rw [hn] at hp; simp [truthyNext] at hp
          | some u =>
              rw [hn] at hp
              cases u with
              | nil => simp [truthyNext] at hp
              | cons a as => simp [hrec, hn]

/-! ### Lemmas: `List.mapM` over `Except` -/

theorem mapM_error_elem {α β : Type} {f : α → Except DErr β} {l : List α} {e : DErr}
    (h : l.mapM f = .error e) : ∃ x ∈ l, f x = .error e := by
  induction l with
  | nil => simp [List.mapM, List.mapM.loop, pure, Except.pure] at h
  | cons x xs ih =>
      rw [List.mapM_cons] at h
      cases hx : f x with
      | error ex =>
          rw [hx] at h
          have : ex = e := by
            simpa [Bind.bind, Except.bind] using h
          exact ⟨x, List.mem_cons_self x xs, by rw [hx, this]⟩
      | ok b =>
          rw [hx] at h
          cases hxs : xs.mapM f with
          | error exs =>
              rw [hxs] at h
              have : exs = e := by
                simpa [Bind.bind, Except.bind] using h
              obtain ⟨y, hy, hye⟩ := ih (by rw [hxs, this])
              exact ⟨y, List.mem_cons_of_mem x hy, hye⟩
          | ok bs =>
              rw [hxs] at h
              simp [Bind.bind, Except.bind, pure, Except.pure] at h

theorem mapM_ok_mem_ok {α β : Type} {f : α → Except DErr β} {l : List α} {l2 : List β}
    (h : l.mapM f = .ok l2) : ∀ x ∈ l, ∃ b, f x = .ok b := by
  induction l generalizing l2 with
  | nil => intro x hx; cases hx
  | cons y ys ih =>
      rw [List.mapM_cons] at h
      obtain ⟨b, hb, h⟩ := bind_ok_iff.mp h
      obtain ⟨bs, hbs, h⟩ := bind_ok_iff.mp h
      intro x hx
      cases List.mem_cons.mp hx with
      | inl he => exact ⟨b, he ▸ hb⟩
      | inr hm => exact ih hbs x hm

theorem mapM_ok_of_forall {α β : Type} {f : α → Except DErr β} {l : List α}
    (h : ∀ x ∈ l, ∃ b, f x = .ok b) : ∃ l2, l.mapM f = .ok l2 := by
  induction l with
  | nil => exact ⟨[], rfl⟩
  | cons y ys ih =>
      obtain ⟨b, hb⟩ := h y (List.mem_cons_self y ys)
      obtain ⟨bs, hbs⟩ := ih (fun x hx => h x (List.mem_cons_of_mem y hx))
      refine ⟨b :: bs, ?_⟩
      rw [List.mapM_cons, hb, hbs]
      rfl

theorem mapM_ok_length {α β : Type} {f : α → Except DErr β} {l : List α} {l2 : List β}
    (h : l.mapM f = .ok l2) : l2.length = l.length := by
  induction l generalizing l2 with
  | nil =>
      have : l2 = [] := by
        simpa [List.mapM, List.mapM.loop, pure, Except.pure] using h.symm
      rw [this]
      rfl
  | cons y ys ih =>
      rw [List.mapM_cons] at h
      obtain ⟨b, hb, h⟩ := bind_ok_iff.mp h
      obtain ⟨bs, hbs, h⟩ := bind_ok_iff.mp h
      have : b :: bs = l2 := by
        simpa [pure, Except.pure] using h
      rw [← this]
      simp [ih hbs]

theorem mapM_ok_getD {α β : Type} {f : α → Except DErr β} {l : List α} {l2 : List β}
    (d : α) (d2 : β) (h : l.mapM f = .ok l2) :
    ∀ i, i < l.length → f (l.getD i d) = .ok (l2.getD i d2) := by
  induction l generalizing l2 with
  | nil => intro i hi; cases hi
  | cons y ys ih =>
      rw [List.mapM_cons] at h
      obtain ⟨b, hb, h⟩ := bind_ok_iff.mp h
      obtain ⟨bs, hbs, h⟩ := bind_ok_iff.mp h
      have hl2 : b :: bs = l2 := by
        simpa [pure, Except.pure] using h
      intro i hi
      cases i with
      | zero => rw [← hl2]; exact hb
      | succ n =>
          rw [← hl2]
          exact ih hbs n (by simpa using hi)

/-! ### Lemmas: the HDI reshape -/

/-- The `metric_year` cell of a melted row is the source column name. -/
theorem meltRow_getD3 (cols : List Str) (ix : Nat) (r : List Cell) :
    (meltRow cols ix r).getD 3 Cell.null = Cell.str (cols.getD ix []) := rfl

theorem splitYearRow_eq {r : List Cell} {s : Str} (h : r.getD 3 Cell.null = Cell.str s) :
    splitYearRow r = match pyParseIntN (rsplitSuffix s) with
      | some y => .ok (r ++ [Cell.str (rsplitStem s), Cell.int y])
      | none => .error (.parseError (rsplitSuffix s)) := by
  unfold splitYearRow
  rw [h]

theorem splitYearRow_error_shape {r : List Cell} {e : DErr}
    (h : splitYearRow r = .error e) : ∃ s, e = .parseError s := by
  unfold splitYearRow at h
  split at h
  · split at h
    · cases h
    · injection h with h2
      exact ⟨_, h2.symm⟩
  · injection h with h2
    exact ⟨_, h2.symm⟩

/-- Body of the reshape once the `id_vars` check has passed. -/
theorem reshape_body {df : Table} {ind : List (Str × Str)}
    (hfind : hdiIdVars.find? (fun n => !(df.cols.contains n)) = none) :
    reshape_long_HDI df ind =
      (((hdiValueIdxs df.cols ind).flatMap
          (fun ix => df.rows.map (fun r => meltRow df.cols ix r))).mapM splitYearRow).bind
        (fun withYear => .ok (Table.mk hdiLongCols
          (List.range ((withYear.map (fun r => r.take 3 ++ r.drop 4)).map
            (fun r => metricNameRow ind r)).length)
          ((withYear.map (fun r => r.take 3 ++ r.drop 4)).map
            (fun r => metricNameRow ind r)))) := by
  unfold reshape_long_HDI
  rw [hfind]
  rfl

theorem idvars_find_none {df : Table} (hid : ∀ n ∈ hdiIdVars, n ∈ df.cols) :
    hdiIdVars.find? (fun n => !(df.cols.contains n)) = none := by
  apply List.find?_eq_none.mpr
  intro x hx
  simp [hid x hx]

theorem reshape_err_of_find_some {df : Table} {ind : List (Str × Str)} {n : Str}
    (hfind : hdiIdVars.find? (fun n => !(df.cols.contains n)) = some n) :
    reshape_long_HDI df ind = .error (.keyError n) := by
  unfold reshape_long_HDI
  rw [hfind]

/-- The melt produces `|value columns| * |rows|` rows. -/
theorem flatMap_map_length {α : Type} (V : List Nat) (rows : List (List Cell))
    (g : Nat → List Cell → α) :
    (V.flatMap (fun ix => rows.map (g ix))).length = V.length * rows.length := by
  induction V with
  | nil => simp
  | cons v vs ih =>
      rw [List.flatMap_cons, List.length_append, List.length_map, ih,
        List.length_cons, Nat.succ_mul]
      exact Nat.add_comm _ _

/-- The melt output is column-major: position `j * |rows| + i` holds the
melted cell of value column `j` and source row `i`. -/
theorem getD_flatMap_map {α : Type} (V : List Nat) (rows : List (List Cell))
    (g : Nat → List Cell → α) (d : α) :
    ∀ j i, j < V.length → i < rows.length →
    (V.flatMap (fun ix => rows.map (g ix))).getD (j * rows.length + i) d
      = g (V.getD j 0) (rows.getD i []) := by
  induction V with
  | nil => intro j i hj _; cases hj
  | cons v vs ih =>
      intro j i hj hi
      rw [List.flatMap_cons]
      cases j with
      | zero =>
          rw [Nat.zero_mul, Nat.zero_add]
          rw [List.getD_append _ _ _ _ (by rw [List.length_map]; exact hi)]
          rw [List.getD_eq_getElem _ _ (by rw [List.length_map]; exact hi),
            List.getElem_map, List.getD_eq_getElem _ _ hi]
          rfl
      | succ j2 =>
          have hlen : (rows.map (g v)).length ≤ (j2 + 1) * rows.length + i := by
            rw [List.length_map, Nat.succ_mul]
            omega
          rw [List.getD_append_right _ _ _ _ hlen, List.length_map]
          have heq : (j2 + 1) * rows.length + i - rows.length
              = j2 * rows.length + i := by
            rw [Nat.succ_mul]
            omega
          rw [heq]
          exact ih j2 i (by simpa using hj) hi

/-! ### Lemmas: error shapes (all pipeline failures are KeyErrors) -/

theorem bind_error_iff {α β : Type} {x : Except DErr α} {f : α → Except DErr β} {e : DErr} :
    (x >>= f) = .error e ↔ (x = .error e ∨ ∃ a, x = .ok a ∧ f a = .error e) := by
  cases x <;> simp [Bind.bind, Except.bind]

theorem colIdxsAux_ne_nil_mem {cols : List Str} {n : Str} {k : Nat}
    (h : colIdxsAux cols n k ≠ []) : n ∈ cols := by
  induction cols generalizing k with
  | nil => exact absurd rfl h
  | cons c rest ih =>
      by_cases hc : c = n
      · exact hc ▸ List.mem_cons_self c rest
      · refine List.mem_cons_of_mem c (ih (k := k + 1) ?_)
        intro he
        apply h
        show (if c = n then k :: colIdxsAux rest n (k + 1) else colIdxsAux rest n (k + 1)) = []
        rw [if_neg hc, he]

theorem yearCoerce_ok_mem {t u : Table} (h : yearCoerce t = .ok u) :
    nm "year" ∈ t.cols := by
  unfold yearCoerce at h
  split at h
  · cases h
  · rename_i i hi
    apply colIdxsAux_ne_nil_mem (k := 0)
    intro he
    unfold colIdxs at hi
    rw [he] at hi
    cases hi

theorem yearCoerce_err_shape {t : Table} {e : DErr} (h : yearCoerce t = .error e) :
    e = .keyError (nm "year") := by
  unfold yearCoerce at h
  split at h
  · injection h with h2
    exact h2.symm
  · cases h

theorem filterByCol_ok_mem_col {t : Table} {c : Str} {p : Cell → Bool} {u : Table}
    (h : filterByCol t c p = .ok u) : c ∈ t.cols :=
  List.mem_of_elem_eq_true (filterByCol_ok_contains h)

theorem filterByCol_err_shape {t : Table} {c : Str} {p : Cell → Bool} {e : DErr}
    (h : filterByCol t c p = .error e) : e = .keyError c := by
  unfold filterByCol at h
  split at h
  · cases h
  · injection h with h2
    exact h2.symm

theorem selectCols_err_shape {t : Table} {names : List Str} {e : DErr}
    (h : selectCols t names = .error e) : ∃ c, e = .keyError c := by
  unfold selectCols at h
  split at h
  · injection h with h2
    exact ⟨_, h2.symm⟩
  · cases h

theorem iso3Step_err_shape {i : Option (List Str)} {t : Table} {e : DErr}
    (h : iso3Step i t = .error e) : ∃ c, e = .keyError c := by
  unfold iso3Step at h
  split at h
  · exact ⟨_, filterByCol_err_shape h⟩
  · cases h

theorem giddIso3Step_err_shape {i : GiddIso} {t : Table} {e : DErr}
    (h : giddIso3Step i t = .error e) : ∃ c, e = .keyError c := by
  unfold giddIso3Step at h
  split at h
  · exact ⟨_, filterByCol_err_shape h⟩
  · cases h

theorem startYearStep_err_shape {col : Str} {b : Option Int} {t : Table} {e : DErr}
    (h : startYearStep col b t = .error e) : ∃ c, e = .keyError c := by
  unfold startYearStep at h
  split at h
  · exact ⟨_, filterByCol_err_shape h⟩
  · cases h

theorem endYearStep_err_shape {col : Str} {b : Option Int} {t : Table} {e : DErr}
    (h : endYearStep col b t = .error e) : ∃ c, e = .keyError c := by
  unfold endYearStep at h
  split at h
  · exact ⟨_, filterByCol_err_shape h⟩
  · cases h

theorem hazardStep_err_shape {col : Str} {v : Option Str} {t : Table} {e : DErr}
    (h : hazardStep col v t = .error e) : ∃ c, e = .keyError c := by
  unfold hazardStep at h
  split at h
  · exact ⟨_, filterByCol_err_shape h⟩
  · cases h

theorem idmcSelect_err_shape {ind : IndSpec} {t : Table} {e : DErr}
    (h : idmcSelect ind t = .error e) : ∃ c, e = .keyError c := by
  unfold idmcSelect at h
  split at h
  · exact selectCols_err_shape h
  · rcases bind_error_iff.mp h with h2 | ⟨a, ha, h2⟩
    · exact selectCols_err_shape h2
    · cases h2

theorem giddSelect_err_shape {ind : GiddInd} {t : Table} {e : DErr}
    (h : giddSelect ind t = .error e) : ∃ c, e = .keyError c := by
  unfold giddSelect at h
  split at h
  · cases h
  · exact selectCols_err_shape h

/-- Every failure of `get_data_IDMC` is a missing-column `KeyError`. -/
theorem idmc_error_shape {raw : Table} {ind : IndSpec} {iso3 : Option (List Str)}
    {s e : Option Int} {hcn htn : Option Str} {er : DErr}
    (h : get_data_IDMC raw ind iso3 s e hcn htn = .error er) :
    ∃ c, er = .keyError c := by
  unfold get_data_IDMC at h
  rcases bind_error_iff.mp h with h | ⟨d1, h1, h⟩
  · exact ⟨_, yearCoerce_err_shape h⟩
  rcases bind_error_iff.mp h with h | ⟨d2, h2, h⟩
  · exact iso3Step_err_shape h
  rcases bind_error_iff.mp h with h | ⟨d3, h3, h⟩
  · exact startYearStep_err_shape h
  rcases bind_error_iff.mp h with h | ⟨d4, h4, h⟩
  · exact endYearStep_err_shape h
  rcases bind_error_iff.mp h with h | ⟨d5, h5, h⟩
  · exact hazardStep_err_shape h
  rcases bind_error_iff.mp h with h | ⟨d6, h6, h⟩
  · exact hazardStep_err_shape h
  rcases bind_error_iff.mp h with h | ⟨d7, h7, h⟩
  · exact idmcSelect_err_shape h
  cases h

/-- Every failure of `get_data_GIDD` is a missing-column `KeyError`. -/
theorem gidd_error_shape {pages : List GiddPage} {iso3 : GiddIso}
    {s e : Option Int} {hcn htn : Option Str} {ind : GiddInd} {er : DErr}
    (h : get_data_GIDD pages iso3 s e hcn htn ind = .error er) :
    ∃ c, er = .keyError c := by
  unfold get_data_GIDD at h
  rcases bind_error_iff.mp h with h | ⟨d1, h1, h⟩
  · exact ⟨_, yearCoerce_err_shape h⟩
  rcases bind_error_iff.mp h with h | ⟨d2, h2, h⟩
  · exact giddIso3Step_err_shape h
  rcases bind_error_iff.mp h with h | ⟨d3, h3, h⟩
  · exact startYearStep_err_shape h
  rcases bind_error_iff.mp h with h | ⟨d4, h4, h⟩
  · exact endYearStep_err_shape h
  rcases bind_error_iff.mp h with h | ⟨d5, h5, h⟩
  · exact hazardStep_err_shape h
  rcases bind_error_iff.mp h with h | ⟨d6, h6, h⟩
  · exact hazardStep_err_shape h
  rcases bind_error_iff.mp h with h | ⟨d7, h7, h⟩
  · exact giddSelect_err_shape h
  cases h

/-- A successful IDMC call implies every accessed column was present in
the normalized source table. -/
theorem idmc_ok_required {raw : Table} {ind : IndSpec} {iso3 : Option (List Str)}
    {s e : Option Int} {hcn htn : Option Str} {out : Table}
    (h : get_data_IDMC raw ind iso3 s e hcn htn = .ok out) :
    nm "year" ∈ (normalizeCols raw).cols
    ∧ (∀ v vs, iso3 = some (v :: vs) → nm "iso3" ∈ (normalizeCols raw).cols)
    ∧ (∀ v vs, hcn = some (v :: vs) →
        nm "hazard_category_name" ∈ (normalizeCols raw).cols)
    ∧ (∀ v vs, htn = some (v :: vs) →
        nm "hazard_type_name" ∈ (normalizeCols raw).cols)
    ∧ (∀ c ∈ idmcBase, c ∈ (normalizeCols raw).cols)
    ∧ (∀ m, ind = .sel m → ∀ kv ∈ m, kv.1 ∈ (normalizeCols raw).cols) := by
  unfold get_data_IDMC at h
  obtain ⟨d1, h1, h⟩ := bind_ok_iff.mp h
  obtain ⟨d2, h2, h⟩ := bind_ok_iff.mp h
  obtain ⟨d3, h3, h⟩ := bind_ok_iff.mp h
  obtain ⟨d4, h4, h⟩ := bind_ok_iff.mp h
  obtain ⟨d5, h5, h⟩ := bind_ok_iff.mp h
  obtain ⟨d6, h6, h⟩ := bind_ok_iff.mp h
  obtain ⟨d7, h7, h⟩ := bind_ok_iff.mp h
  have hc1 : d1.cols = (normalizeCols raw).cols := yearCoerce_ok_cols h1
  have hc4 : d4.cols = (normalizeCols raw).cols := by
    rw [(endYearStep_ok h4).1, (startYearStep_ok h3).1, (iso3Step_ok h2).1, hc1]
  have hc5 : d5.cols = (normalizeCols raw).cols := by
    rw [(hazardStep_ok h5).1, hc4]
  have hc6 : d6.cols = (normalizeCols raw).cols := by
    rw [(hazardStep_ok h6).1, hc5]
  refine ⟨yearCoerce_ok_mem h1, ?_, ?_, ?_, ?_, ?_⟩
  · intro v vs hv
    subst hv
    have := filterByCol_ok_mem_col
      (show filterByCol d1 (nm "iso3") (isinPred (v :: vs)) = .ok d2 from h2)
    rwa [hc1] at this
  · intro v vs hv
    subst hv
    have := filterByCol_ok_mem_col
      (show filterByCol d4 (nm "hazard_category_name") (ciEqPred (v :: vs)) = .ok d5 from h5)
    rwa [hc4] at this
  · intro v vs hv
    subst hv
    have := filterByCol_ok_mem_col
      (show filterByCol d5 (nm "hazard_type_name") (ciEqPred (v :: vs)) = .ok d6 from h6)
    rwa [hc5] at this
  · intro c hc
    cases ind with
    | all =>
        have hn := selectCols_ok_names
          (show selectCols d6 (idmcBase ++ d6.cols.filter
            (fun c => !(idmcBase.contains c))) = .ok d7 from h7)
        have := hn c (List.mem_append_left _ hc)
        rwa [hc6] at this
    | sel m =>
        obtain ⟨d8, h8, _⟩ := bind_ok_iff.mp
          (show (selectCols d6 (idmcBase ++ m.map (fun kv => kv.1)) >>= fun d =>
            Except.ok (renameCols d m)) = .ok d7 from h7)
        have hn := selectCols_ok_names h8
        have := hn c (List.mem_append_left _ hc)
        rwa [hc6] at this
  · intro m hm kv hkv
    subst hm
    obtain ⟨d8, h8, _⟩ := bind_ok_iff.mp
      (show (selectCols d6 (idmcBase ++ m.map (fun kv => kv.1)) >>= fun d =>
        Except.ok (renameCols d m)) = .ok d7 from h7)
    have hn := selectCols_ok_names h8
    have := hn kv.1 (List.mem_append_right _ (List.mem_map_of_mem _ hkv))
    rwa [hc6] at this

/-- A successful GIDD call implies every accessed column was present in
the normalized assembled table. -/
theorem gidd_ok_required {pages : List GiddPage} {iso3 : GiddIso}
    {s e : Option Int} {hcn htn : Option Str} {ind : GiddInd} {out : Table}
    (h : get_data_GIDD pages iso3 s e hcn htn ind = .ok out) :
    nm "year" ∈ (normalizeCols (mkDF (giddCollect pages))).cols
    ∧ (∀ l, iso3 = .codes l →
        nm "iso3" ∈ (normalizeCols (mkDF (giddCollect pages))).cols)
    ∧ (∀ v vs, hcn = some (v :: vs) →
        nm "hazard_category_name" ∈ (normalizeCols (mkDF (giddCollect pages))).cols)
    ∧ (∀ v vs, htn = some (v :: vs) →
        nm "hazard_type_name" ∈ (normalizeCols (mkDF (giddCollect pages))).cols)
    ∧ (∀ m, ind = .sel m →
        (∀ c ∈ giddBase, c ∈ (normalizeCols (mkDF (giddCollect pages))).cols)
        ∧ ∀ kv ∈ m, kv.1 ∈ (normalizeCols (mkDF (giddCollect pages))).cols) := by
  unfold get_data_GIDD at h
  obtain ⟨d1, h1, h⟩ := bind_ok_iff.mp h
  obtain ⟨d2, h2, h⟩ := bind_ok_iff.mp h
  obtain ⟨d3, h3, h⟩ := bind_ok_iff.mp h
  obtain ⟨d4, h4, h⟩ := bind_ok_iff.mp h
  obtain ⟨d5, h5, h⟩ := bind_ok_iff.mp h
  obtain ⟨d6, h6, h⟩ := bind_ok_iff.mp h
  obtain ⟨d7, h7, h⟩ := bind_ok_iff.mp h
  have hc1 : d1.cols = (normalizeCols (mkDF (giddCollect pages))).cols :=
    yearCoerce_ok_cols h1
  have hc4 : d4.cols = (normalizeCols (mkDF (giddCollect pages))).cols := by
    rw [(endYearStep_ok h4).1, (startYearStep_ok h3).1, (giddIso3Step_ok h2).1, hc1]
  have hc5 : d5.cols = (normalizeCols (mkDF (giddCollect pages))).cols := by
    rw [(hazardStep_ok h5).1, hc4]
  have hc6 : d6.cols = (normalizeCols (mkDF (giddCollect pages))).cols := by
    rw [(hazardStep_ok h6).1, hc5]
  refine ⟨yearCoerce_ok_mem h1, ?_, ?_, ?_, ?_⟩
  · intro l hl
    subst hl
    have := filterByCol_ok_mem_col
      (show filterByCol d1 (nm "iso3") (isinPred (l.map stripN)) = .ok d2 from h2)
    rwa [hc1] at this
  · intro v vs hv
    subst hv
    have := filterByCol_ok_mem_col
      (show filterByCol d4 (nm "hazard_category_name") (ciEqPred (v :: vs)) = .ok d5 from h5)
    rwa [hc4] at this
  · intro v vs hv
    subst hv
    have := filterByCol_ok_mem_col
      (show filterByCol d5 (nm "hazard_type_name") (ciEqPred (v :: vs)) = .ok d6 from h6)
    rwa [hc5] at this
  · intro m hm
    subst hm
    have hn := selectCols_ok_names
      (show selectCols d6 (giddBase ++ m.map (fun kv => kv.1)) = .ok d7 from h7)
    constructor
    · intro c hc
      have := hn c (List.mem_append_left _ hc)
      rwa [hc6] at this
    · intro kv hkv
      have := hn kv.1 (List.mem_append_right _ (List.mem_map_of_mem _ hkv))
      rwa [hc6] at this

/-! ### Lemmas: the World Bank outer merge -/

/-- The (Country, ISO3, Year) key a fetched record contributes. -/
def recKey (r : WBRec) : List Cell :=
  [Cell.str r.country, Cell.str (r.countryiso3code.getD r.countryId), Cell.int r.date]

/-- The rows of a table carrying a given merge key. -/
def keyFilter (rows : List (List Cell)) (k : List Cell) : List (List Cell) :=
  rows.filter (fun r => r.take 3 == k)

/-- Shape invariant maintained by the merge fold: rows are as wide as the
column list, there are at least the three key columns, and the index is
aligned with the rows. -/
def wfTable (t : Table) : Prop :=
  (∀ r ∈ t.rows, r.length = t.cols.length)
  ∧ 3 ≤ t.cols.length ∧ t.index.length = t.rows.length

theorem mkWBRow_take3 (r : WBRec) : (mkWBRow r).take 3 = recKey r := rfl

theorem mergeOuter_cols (L R : Table) :
    (mergeOuter L R).cols = L.cols ++ R.cols.drop 3 := rfl

theorem mergeOuter_rows (L R : Table) : (mergeOuter L R).rows =
    (L.rows.flatMap (fun lr =>
      match R.rows.filter (fun rr => rr.take 3 == lr.take 3) with
      | [] => [lr ++ List.replicate (R.cols.length - 3) Cell.null]
      | ms => ms.map (fun rr => lr ++ rr.drop 3)))
    ++ ((R.rows.filter (fun rr => L.rows.all (fun lr => !(rr.take 3 == lr.take 3)))).map
      (fun rr => rr.take 3 ++ List.replicate (L.cols.length - 3) Cell.null
        ++ rr.drop 3)) := rfl

theorem mergeOuter_wf {L R : Table} (hL : wfTable L) (hR : wfTable R) :
    wfTable (mergeOuter L R) := by
  obtain ⟨hLr, hL3, _⟩ := hL
  obtain ⟨hRr, hR3, _⟩ := hR
  refine ⟨?_, ?_, ?_⟩
  · intro r hr
    rw [mergeOuter_cols, List.length_append, List.length_drop]
    rcases List.mem_append.mp hr with hr | hr
    · obtain ⟨lr, hlr, hfr⟩ := List.mem_flatMap.mp hr
      have hlrlen := hLr lr hlr
      split at hfr
      · cases hfr with
        | head =>
            rw [List.length_append, List.length_replicate]
            omega
        | tail _ h2 => cases h2
      · obtain ⟨rr, hrr, hre⟩ := List.mem_map.mp hfr
        have hrrlen := hRr rr (List.mem_filter.mp hrr).1
        rw [← hre, List.length_append, List.length_drop]
        omega
    · obtain ⟨rr, hrr, hre⟩ := List.mem_map.mp hr
      have hrrlen := hRr rr (List.mem_filter.mp hrr).1
      rw [← hre]
      rw [List.length_append, List.length_append, List.length_take,
        List.length_replicate, List.length_drop]
      omega
  · rw [mergeOuter_cols, List.length_append]
    omega
  · show (List.range _).length = _
    rw [List.length_range]
    rfl

/-- Filtering the flat-mapped melt by key restricts to the generating
rows with that key, when the generator preserves keys. -/
theorem filter_flatMap_key {rows : List (List Cell)} {f : List Cell → List (List Cell)}
    {k : List Cell} (hf : ∀ x ∈ rows, ∀ y ∈ f x, y.take 3 = x.take 3) :
    (rows.flatMap f).filter (fun r => r.take 3 == k)
      = (rows.filter (fun r => r.take 3 == k)).flatMap f := by
  induction rows with
  | nil => rfl
  | cons x xs ih =>
      rw [List.flatMap_cons, List.filter_append, List.filter_cons]
      have hx : ∀ y ∈ f x, y.take 3 = x.take 3 :=
        hf x (List.mem_cons_self x xs)
      have ihx := ih (fun z hz => hf z (List.mem_cons_of_mem x hz))
      by_cases hkx : x.take 3 = k
      · have hpred : (x.take 3 == k) = true := by simp [hkx]
        rw [hpred]
        simp only [if_true]
        rw [List.flatMap_cons, ihx]
        congr 1
        apply List.filter_eq_self.mpr
        intro y hy
        simp [hx y hy, hkx]
      · have hpred : (x.take 3 == k) = false := by simp [hkx]
        rw [hpred]
        simp only [Bool.false_eq_true, if_false]
        rw [ihx]
        have : (f x).filter (fun r => r.take 3 == k) = [] := by
          apply List.filter_eq_nil_iff.mpr
          intro y hy
          simp [hx y hy, hkx]
        rw [this, List.nil_append]

theorem keyFilter_mem_key {rows : List (List Cell)} {k x : List Cell}
    (h : keyFilter rows k = [x]) : x ∈ rows ∧ x.take 3 = k := by
  have hx : x ∈ keyFilter rows k := by rw [h]; exact List.mem_singleton.mpr rfl
  unfold keyFilter at hx
  have := List.mem_filter.mp hx
  exact ⟨this.1, by simpa using this.2⟩

/-- Decomposition of the merged rows' key filter: the left block. -/
theorem keyFilter_leftPart {L R : Table} {k : List Cell}
    (hLr : ∀ r ∈ L.rows, 3 ≤ r.length) :
    (L.rows.flatMap (fun lr =>
      match R.rows.filter (fun rr => rr.take 3 == lr.take 3) with
      | [] => [lr ++ List.replicate (R.cols.length - 3) Cell.null]
      | ms => ms.map (fun rr => lr ++ rr.drop 3))).filter (fun r => r.take 3 == k)
    = (keyFilter L.rows k).flatMap (fun lr =>
      match R.rows.filter (fun rr => rr.take 3 == lr.take 3) with
      | [] => [lr ++ List.replicate (R.cols.length - 3) Cell.null]
      | ms => ms.map (fun rr => lr ++ rr.drop 3)) := by
  apply filter_flatMap_key
  intro x hx y hy
  have hx3 := hLr x hx
  split at hy
  · cases hy with
    | head => exact List.take_append_of_le_length hx3
    | tail _ h2 => cases h2
  · obtain ⟨rr, _, hre⟩ := List.mem_map.mp hy
    rw [← hre]
    exact List.take_append_of_le_length hx3

/-- Decomposition of the merged rows' key filter: the right block. -/
theorem keyFilter_rightPart {L R : Table} {k : List Cell}
    (hRr : ∀ r ∈ R.rows, 3 ≤ r.length) :
    ((R.rows.filter (fun rr => L.rows.all (fun lr => !(rr.take 3 == lr.take 3)))).map
      (fun rr => rr.take 3 ++ List.replicate (L.cols.length - 3) Cell.null
        ++ rr.drop 3)).filter (fun r => r.take 3 == k)
    = ((R.rows.filter (fun rr => L.rows.all (fun lr => !(rr.take 3 == lr.take 3)))).filter
        (fun rr => rr.take 3 == k)).map
      (fun rr => rr.take 3 ++ List.replicate (L.cols.length - 3) Cell.null ++ rr.drop 3) := by
  rw [List.filter_map]
  congr 1
  apply List.filter_congr
  intro rr hrr
  have h3 : 3 ≤ rr.length := hRr rr (List.mem_filter.mp hrr).1
  have htk : ((rr.take 3 ++ (List.replicate (L.cols.length - 3) Cell.null
      ++ rr.drop 3)).take 3) = rr.take 3 := by
    rw [List.take_append_of_le_length
      (show 3 ≤ (rr.take 3).length by rw [List.length_take]; omega)]
    simp [List.take_take]
  show ((rr.take 3 ++ List.replicate (L.cols.length - 3) Cell.null ++ rr.drop 3).take 3 == k)
      = (rr.take 3 == k)
  rw [List.append_assoc, htk]

/-- With no key-carrying rows on the right, the unmatched right block
contributes no key-carrying merged rows. -/
theorem keyFilter_right_nil {L R : Table} {k : List Cell}
    (hR : keyFilter R.rows k = []) :
    (R.rows.filter (fun rr => L.rows.all (fun lr => !(rr.take 3 == lr.take 3)))).filter
      (fun rr => rr.take 3 == k) = [] := by
  rw [List.filter_filter]
  apply List.filter_eq_nil_iff.mpr
  intro rr hrr hcontra
  rw [Bool.and_eq_true] at hcontra
  have : rr ∈ keyFilter R.rows k := List.mem_filter.mpr ⟨hrr, hcontra.1⟩
  rw [hR] at this
  cases this

/-- The merge of a unique-key left row with a key-free right table keeps
that row once, padded with nulls for the right value columns. -/
theorem merge_keyFilter_left {L R : Table} {k lr : List Cell}
    (hLr : ∀ r ∈ L.rows, 3 ≤ r.length) (hRr : ∀ r ∈ R.rows, 3 ≤ r.length)
    (hL : keyFilter L.rows k = [lr]) (hR : keyFilter R.rows k = []) :
    keyFilter (mergeOuter L R).rows k
      = [lr ++ List.replicate (R.cols.length - 3) Cell.null] := by
  obtain ⟨hlrm, hlrk⟩ := keyFilter_mem_key hL
  unfold keyFilter
  rw [mergeOuter_rows, List.filter_append, keyFilter_leftPart hLr,
    keyFilter_rightPart hRr, show keyFilter L.rows k = [lr] from hL]
  have hmatch : R.rows.filter (fun rr => rr.take 3 == lr.take 3) = [] := by
    rw [hlrk]
    exact hR
  rw [List.flatMap_cons, hmatch, keyFilter_right_nil hR]
  rfl

/-- The merge of a key-free left table with a unique-key right row
introduces that row once, padded with nulls for the left value columns. -/
theorem merge_keyFilter_right {L R : Table} {k rr : List Cell}
    (hLr : ∀ r ∈ L.rows, 3 ≤ r.length) (hRr : ∀ r ∈ R.rows, 3 ≤ r.length)
    (hL : keyFilter L.rows k = []) (hR : keyFilter R.rows k = [rr]) :
    keyFilter (mergeOuter L R).rows k
      = [rr.take 3 ++ List.replicate (L.cols.length - 3) Cell.null ++ rr.drop 3] := by
  obtain ⟨hrrm, hrrk⟩ := keyFilter_mem_key hR
  unfold keyFilter
  rw [mergeOuter_rows, List.filter_append, keyFilter_leftPart hLr,
    keyFilter_rightPart hRr, show keyFilter L.rows k = [] from hL]
  have hstep : (R.rows.filter (fun x =>
      L.rows.all (fun lr => !(x.take 3 == lr.take 3)))).filter
      (fun x => x.take 3 == k) = R.rows.filter (fun x => x.take 3 == k) := by
    rw [List.filter_filter]
    apply List.filter_congr
    intro x hx
    by_cases hxk : (x.take 3 == k) = true
    · have hxm : x ∈ keyFilter R.rows k := List.mem_filter.mpr ⟨hx, hxk⟩
      rw [hR, List.mem_singleton] at hxm
      subst hxm
      have hall : L.rows.all (fun lr => !(x.take 3 == lr.take 3)) = true := by
        rw [List.all_eq_true]
        intro lr hlr
        have hne : ¬ (x.take 3 = lr.take 3) := by
          intro he
          have : lr ∈ keyFilter L.rows k := by
            apply List.mem_filter.mpr
            refine ⟨hlr, ?_⟩
            rw [← he, hrrk]
            exact beq_self_eq_true k
          rw [hL] at this
          cases this
        simpa using hne
      rw [hxk, hall]
      rfl
    · have hxk2 : (x.take 3 == k) = false := by
        rwa [Bool.not_eq_true] at hxk
      rw [hxk2]
      rfl
  rw [hstep, show R.rows.filter (fun x => x.take 3 == k) = [rr] from hR]
  rfl

/-- Merging two key-free tables yields a key-free table. -/
theorem merge_keyFilter_none {L R : Table} {k : List Cell}
    (hLr : ∀ r ∈ L.rows, 3 ≤ r.length) (hRr : ∀ r ∈ R.rows, 3 ≤ r.length)
    (hL : keyFilter L.rows k = []) (hR : keyFilter R.rows k = []) :
    keyFilter (mergeOuter L R).rows k = [] := by
  unfold keyFilter
  rw [mergeOuter_rows, List.filter_append, keyFilter_leftPart hLr,
    keyFilter_rightPart hRr, show keyFilter L.rows k = [] from hL,
    keyFilter_right_nil hR]
  rfl

theorem getD_replicate_null : ∀ (n i : Nat),
    (List.replicate n Cell.null).getD i Cell.null = Cell.null := by
  intro n
  induction n with
  | zero => intro i; cases i <;> rfl
  | succ m ih =>
      intro i
      cases i with
      | zero => rfl
      | succ i2 => exact ih i2

theorem wfTable_three {t : Table} (h : wfTable t) : ∀ r ∈ t.rows, 3 ≤ r.length := by
  intro r hr
  rw [h.1 r hr]
  exact h.2.1

theorem fold_wf {ts : List Table} {A : Table}
    (hA : wfTable A) (hts : ∀ t ∈ ts, wfTable t) :
    wfTable (ts.foldl mergeOuter A) := by
  induction ts generalizing A with
  | nil => exact hA
  | cons t ts ih =>
      exact ih (mergeOuter_wf hA (hts t (List.mem_cons_self t ts)))
        (fun x hx => hts x (List.mem_cons_of_mem t hx))

theorem fold_cols {ts : List Table} {A : Table} :
    (ts.foldl mergeOuter A).cols = A.cols ++ ts.flatMap (fun t => t.cols.drop 3) := by
  induction ts generalizing A with
  | nil => simp
  | cons t ts ih =>
      show (ts.foldl mergeOuter (mergeOuter A t)).cols = _
      rw [ih, mergeOuter_cols, List.flatMap_cons, List.append_assoc]

theorem fold_keyFilter_none {k : List Cell} {ts : List Table} {A : Table}
    (hA : wfTable A) (hts : ∀ t ∈ ts, wfTable t)
    (hAk : keyFilter A.rows k = []) (htk : ∀ t ∈ ts, keyFilter t.rows k = []) :
    keyFilter ((ts.foldl mergeOuter A)).rows k = [] := by
  induction ts generalizing A with
  | nil => exact hAk
  | cons t ts ih =>
      have ht := hts t (List.mem_cons_self t ts)
      exact ih (mergeOuter_wf hA ht)
        (fun x hx => hts x (List.mem_cons_of_mem t hx))
        (merge_keyFilter_none (wfTable_three hA) (wfTable_three ht) hAk
          (htk t (List.mem_cons_self t ts)))
        (fun x hx => htk x (List.mem_cons_of_mem t hx))

theorem fold_keyFilter_carry {k : List Cell} {ts : List Table} {A : Table} {a : List Cell}
    (hA : wfTable A) (hts : ∀ t ∈ ts, wfTable t)
    (hAk : keyFilter A.rows k = [a]) (htk : ∀ t ∈ ts, keyFilter t.rows k = []) :
    keyFilter ((ts.foldl mergeOuter A)).rows k
      = [a ++ List.replicate ((ts.flatMap (fun t => t.cols.drop 3)).length) Cell.null] := by
  induction ts generalizing A a with
  | nil => simpa using hAk
  | cons t ts ih =>
      have ht := hts t (List.mem_cons_self t ts)
      have hmerge := merge_keyFilter_left (wfTable_three hA) (wfTable_three ht) hAk
        (htk t (List.mem_cons_self t ts))
      have hrec := ih (mergeOuter_wf hA ht)
        (fun x hx => hts x (List.mem_cons_of_mem t hx)) hmerge
        (fun x hx => htk x (List.mem_cons_of_mem t hx))
      rw [List.foldl_cons, hrec, List.flatMap_cons, List.length_append,
        List.length_drop, List.append_assoc, ← List.replicate_add]

theorem flatMap_colIdxs_self {cols : List Str} (h : cols.Nodup) :
    cols.flatMap (fun n => colIdxs cols n) = List.range cols.length := by
  rw [flatMap_colIdxs_eq_map h cols (fun n hn => hn)]
  apply List.ext_getElem (by simp)
  intro j h1 h2
  have hj : j < cols.length := by simpa using h2
  rw [List.getElem_map, List.getElem_range]
  have hmem : cols[j] ∈ cols := List.getElem_mem _
  obtain ⟨j2, hj2, hg, hk⟩ := colIdxs_of_nodup h hmem
  unfold colIdxs
  rw [hk 0]
  show (0 + j2) = j
  rw [Nat.zero_add]
  have : cols[j2] = cols[j] := by
    rw [← List.getD_eq_getElem _ ([] : Str) hj2]
    exact hg
  exact (List.Nodup.getElem_inj_iff h).mp this

/-- Selecting a table's own (distinct) columns is the identity. -/
theorem selectPresent_self {t : Table} (hnd : t.cols.Nodup)
    (hwf : ∀ r ∈ t.rows, r.length = t.cols.length) :
    selectPresent t t.cols = t := by
  unfold selectPresent
  have hfilter : t.cols.filter (fun n => t.cols.contains n) = t.cols := by
    apply List.filter_eq_self.mpr
    intro n hn
    simp [hn]
  rw [hfilter, flatMap_colIdxs_self hnd]
  have hcols : (List.range t.cols.length).map (fun i => t.cols.getD i []) = t.cols := by
    apply List.ext_getElem (by simp)
    intro j h1 h2
    rw [List.getElem_map, List.getElem_range, List.getD_eq_getElem _ _ h2]
  have hrows : t.rows.map (fun r =>
      (List.range t.cols.length).map (fun i => r.getD i Cell.null)) = t.rows := by
    have : ∀ r ∈ t.rows,
        (List.range t.cols.length).map (fun i => r.getD i Cell.null) = r := by
      intro r hr
      apply List.ext_getElem (by simp [hwf r hr])
      intro j h1 h2
      rw [List.getElem_map, List.getElem_range, List.getD_eq_getElem _ _ h2]
    rw [List.map_congr_left this]
    simp
  show Table.mk ((List.range t.cols.length).map (fun i => t.cols.getD i []))
      t.index
      (t.rows.map (fun r => (List.range t.cols.length).map (fun i => r.getD i Cell.null)))
    = t
  rw [hcols, hrows]

theorem map_snd_zip_eq {α β : Type} : ∀ (l1 : List α) (l2 : List β),
    l1.length = l2.length → (l1.zip l2).map Prod.snd = l2 := by
  intro l1
  induction l1 with
  | nil =>
      intro l2 h
      cases l2 with
      | nil => rfl
      | cons b bs => cases h
  | cons a as ih =>
      intro l2 h
      cases l2 with
      | nil => cases h
      | cons b bs =>
          show b :: (as.zip bs).map Prod.snd = b :: bs
          rw [ih bs (by simpa using h)]

theorem exists_zip_mem {α β : Type} : ∀ (l1 : List α) (l2 : List β),
    l1.length = l2.length → ∀ b ∈ l2, ∃ a, (a, b) ∈ l1.zip l2 := by
  intro l1
  induction l1 with
  | nil =>
      intro l2 h b hb
      cases l2 with
      | nil => cases hb
      | cons c cs => cases h
  | cons a as ih =>
      intro l2 h b hb
      cases l2 with
      | nil => cases hb
      | cons c cs =>
          cases List.mem_cons.mp hb with
          | inl he =>
              exact ⟨a, by rw [he]; exact List.mem_cons_self _ _⟩
          | inr hm =>
              obtain ⟨a2, ha2⟩ := ih cs (by simpa using h) b hm
              exact ⟨a2, List.mem_cons_of_mem _ ha2⟩

/-- A row filter can only shrink the set of key-carrying rows. -/
theorem filterRows_keyFilter_sublist {t : Table} {q : List Cell → Bool} {k : List Cell}
    (hlen : t.index.length = t.rows.length) :
    List.Sublist (keyFilter (filterRows t q).rows k) (keyFilter t.rows k) := by
  unfold keyFilter
  apply List.Sublist.filter
  show List.Sublist (filterRows t q).rows t.rows
  unfold filterRows
  have h1 : List.Sublist ((t.index.zip t.rows).filter (fun z => q z.2))
      (t.index.zip t.rows) := List.filter_sublist _
  have h2 := List.Sublist.map Prod.snd h1
  rwa [map_snd_zip_eq t.index t.rows hlen] at h2

/-- A key-carrying row that passes the filter is kept. -/
theorem filterRows_keyFilter_keep {t : Table} {q : List Cell → Bool} {k r : List Cell}
    (hlen : t.index.length = t.rows.length)
    (hk : keyFilter t.rows k = [r]) (hq : q r = true) :
    keyFilter (filterRows t q).rows k = [r] := by
  obtain ⟨hrm, hrk⟩ := keyFilter_mem_key hk
  have hmem : r ∈ (filterRows t q).rows := by
    obtain ⟨a, ha⟩ := exists_zip_mem t.index t.rows hlen r hrm
    unfold filterRows
    apply List.mem_map.mpr
    exact ⟨(a, r), List.mem_filter.mpr ⟨ha, hq⟩, rfl⟩
  have hmem2 : r ∈ keyFilter (filterRows t q).rows k := by
    apply List.mem_filter.mpr
    exact ⟨hmem, by simp [hrk]⟩
  have hsub := filterRows_keyFilter_sublist (q := q) (k := k) hlen
  rw [hk] at hsub
  cases List.sublist_singleton.mp hsub with
  | inl he => rw [he] at hmem2; cases hmem2
  | inr he => exact he

/-- `filterRows` keeps the index aligned with the rows. -/
theorem filterRows_len (t : Table) (q : List Cell → Bool) :
    (filterRows t q).index.length = (filterRows t q).rows.length := by
  unfold filterRows
  rw [List.length_map, List.length_map]

theorem mkWBRow_eq (r : WBRec) : mkWBRow r = recKey r ++ [r.value] := rfl

theorem mkWBTable_cols {name : Str} {recs : List WBRec} (h : recs ≠ []) :
    (mkWBTable name recs).cols = [nm "Country", nm "ISO3", nm "Year", name] := by
  unfold mkWBTable
  rw [if_neg (by simpa using h)]

theorem mkWBTable_wf {name : Str} {recs : List WBRec} (h : recs ≠ []) :
    wfTable (mkWBTable name recs) := by
  refine ⟨?_, ?_, ?_⟩
  · intro r hr
    rw [mkWBTable_cols h]
    obtain ⟨rec, _, hre⟩ := List.mem_map.mp hr
    rw [← hre]
    rfl
  · rw [mkWBTable_cols h]
    simp
  · show (List.range recs.length).length = (recs.map mkWBRow).length
    rw [List.length_range, List.length_map]

theorem mkWBTable_keyFilter (name : Str) (recs : List WBRec) (k : List Cell) :
    keyFilter (mkWBTable name recs).rows k
      = (recs.filter (fun r => recKey r == k)).map mkWBRow := by
  show (recs.map mkWBRow).filter (fun r => r.take 3 == k) = _
  rw [List.filter_map]
  rfl

/-- The position of `Year` in the merged column list. -/
theorem colIdxs_wb_year {names : List Str} (h : ¬ nm "Year" ∈ names) :
    colIdxs ([nm "Country", nm "ISO3", nm "Year"] ++ names) (nm "Year") = [2] := by
  show colIdxsAux (nm "Country" :: nm "ISO3" :: nm "Year" :: names) (nm "Year") 0 = [2]
  show (if nm "Country" = nm "Year" then _ else
    colIdxsAux (nm "ISO3" :: nm "Year" :: names) (nm "Year") 1) = [2]
  rw [if_neg (by decide)]
  show (if nm "ISO3" = nm "Year" then _ else
    colIdxsAux (nm "Year" :: names) (nm "Year") 2) = [2]
  rw [if_neg (by decide)]
  show (if nm "Year" = nm "Year" then 2 :: colIdxsAux names (nm "Year") 3 else _) = [2]
  rw [if_pos rfl, colIdxsAux_nil_of_not_mem h]

/-- The per-indicator tables contribute exactly their display-name
columns after the three keys. -/
theorem tables_flat_names (fetch : Str → List WBRec) :
    ∀ (inds : List (Str × Str)), (∀ kv ∈ inds, fetch kv.1 ≠ []) →
    ((inds.map (fun kv => mkWBTable kv.2 (fetch kv.1))).flatMap
      (fun t => t.cols.drop 3)) = inds.map (fun kv => kv.2) := by
  intro inds
  induction inds with
  | nil => intro _; rfl
  | cons kv rest ih =>
      intro hne
      rw [List.map_cons, List.flatMap_cons, List.map_cons,
        ih (fun x hx => hne x (List.mem_cons_of_mem kv hx)),
        mkWBTable_cols (hne kv (List.mem_cons_self kv rest))]
      rfl

theorem optStartFilter_len {col : Str} {b : Option Int} {t : Table}
    (h : t.index.length = t.rows.length) :
    (optStartFilter col b t).index.length = (optStartFilter col b t).rows.length := by
  cases b with
  | none => exact h
  | some v => exact filterRows_len t _

theorem optEndFilter_len {col : Str} {b : Option Int} {t : Table}
    (h : t.index.length = t.rows.length) :
    (optEndFilter col b t).index.length = (optEndFilter col b t).rows.length := by
  cases b with
  | none => exact h
  | some v => exact filterRows_len t _

theorem optStart_keyFilter {col : Str} {b : Option Int} {t : Table} {k r : List Cell}
    (hlen : t.index.length = t.rows.length)
    (hk : keyFilter t.rows k = [r])
    (hq : ∀ v, b = some v → geYearPred v (cellAt t.cols r col) = true) :
    keyFilter (optStartFilter col b t).rows k = [r] := by
  cases b with
  | none => exact hk
  | some v => exact filterRows_keyFilter_keep hlen hk (hq v rfl)

theorem optEnd_keyFilter {col : Str} {b : Option Int} {t : Table} {k r : List Cell}
    (hlen : t.index.length = t.rows.length)
    (hk : keyFilter t.rows k = [r])
    (hq : ∀ v, b = some v → leYearPred v (cellAt t.cols r col) = true) :
    keyFilter (optEndFilter col b t).rows k = [r] := by
  cases b with
  | none => exact hk
  | some v => exact filterRows_keyFilter_keep hlen hk (hq v rfl)

/-! ### Claim theorems -/

/-- C9: column-name normalization (strip, lowercase, replace spaces with
underscores) is idempotent: normalizing a table twice yields the same
column names as normalizing it once, and the normalization of a single
name is idempotent. -/
theorem claim_C9_normalization_idempotent :
    (∀ t : Table, normalizeCols (normalizeCols t) = normalizeCols t)
    ∧ (∀ l : Str, normalizeNameN (normalizeNameN l) = normalizeNameN l) := by
  constructor
  · intro t
    cases t with
    | mk cols index rows =>
        unfold normalizeCols
        simp only [List.map_map]
        congr 1
        apply List.map_congr_left
        intro a _
        exact normalizeNameN_idem a
  · exact normalizeNameN_idem

/-- C10: when every fetched GIDD page has an empty `results` array, the
assembled frame has no columns, so `get_data_GIDD` fails with a
missing-column (`KeyError`) condition on `year` instead of returning an
empty table — for every combination of the remaining parameters. -/
theorem claim_C10_gidd_empty_keyerror
    (pages : List GiddPage) (iso3 : GiddIso) (start_year end_year : Option Int)
    (hcn htn : Option Str) (indicators : GiddInd)
    (h : ∀ p ∈ pages, p.results = []) :
    get_data_GIDD pages iso3 start_year end_year hcn htn indicators
      = .error (.keyError (nm "year")) := by
  unfold get_data_GIDD
  rw [giddCollect_nil h]
  rfl

/-- Witness for C10 at a concrete input: a single page with no results
and a null `next`. -/
theorem claim_C10_witness :
    get_data_GIDD [{ results := [], next := none }] GiddIso.noCodes none none
        none none GiddInd.all = .error (.keyError (nm "year")) :=
  claim_C10_gidd_empty_keyerror [{ results := [], next := none }]
    GiddIso.noCodes none none none none GiddInd.all (by decide)

/-- C6: for every observed GIDD page sequence whose earlier pages carry a
truthy `next` and whose final page's `next` is absent or null, the
pagination loop terminates with exactly the concatenation of all pages'
`results` arrays in page order (`giddCollect`, the total recursion the
loop performs), and the requests issued are the initial request with
`client_id`/`limit` followed by one request per `next` URL, taken
verbatim with no additional query parameters. -/
theorem claim_C6_gidd_pagination
    (pages : List GiddPage) (client_id : Str) (limit : Int)
    (h1 : ∀ p ∈ pages.dropLast, truthyNext p.next = true)
    (h2 : ∀ p, pages.getLast? = some p → truthyNext p.next = false) :
    giddCollect pages = pages.flatMap (fun p => p.results)
    ∧ giddRequests client_id limit pages
        = { url := giddBaseUrl,
            params := [(nm "client_id", Cell.str client_id), (nm "limit", Cell.int limit)] }
          :: pages.dropLast.map (fun p => { url := p.next.getD [], params := [] }) := by
  constructor
  · exact giddCollect_concat h1
  · unfold giddRequests
    rw [giddNextRequests_spec h1 h2]

/-- Witness for C6: two pages, the first pointing at the second, the
second with a null `next`; the collected records are the two result
arrays concatenated and the requests are the base request plus the
literal `next` URL with empty parameters. -/
theorem claim_C6_witness :
    giddCollect [{ results := [[(nm "a", Cell.int 1)]], next := some (nm "page2") },
                 { results := [[(nm "b", Cell.int 2)]], next := none }]
      = [[(nm "a", Cell.int 1)], [(nm "b", Cell.int 2)]]
    ∧ giddRequests (nm "cid") 500
        [{ results := [[(nm "a", Cell.int 1)]], next := some (nm "page2") },
         { results := [[(nm "b", Cell.int 2)]], next := none }]
      = { url := giddBaseUrl,
          params := [(nm "client_id", Cell.str (nm "cid")), (nm "limit", Cell.int 500)] }
        :: [{ url := nm "page2", params := [] }] := by
  have h := claim_C6_gidd_pagination
    [{ results := [[(nm "a", Cell.int 1)]], next := some (nm "page2") },
     { results := [[(nm "b", Cell.int 2)]], next := none }]
    (nm "cid") 500 (by decide) (by decide)
  exact ⟨by rw [h.1]; rfl, by rw [h.2]; rfl⟩

/-- C1 (counterexample): `get_data_GIDD` with the explicit indicator
mapping `{displacement: "Disaster Displacement"}` returns the base
columns plus the column under its *source* name `displacement`; the
display name `Disaster Displacement` appears nowhere, refuting the
claim that the selected indicator columns are renamed to their display
names. -/
theorem claim_C1_counterexample :
    ((get_data_GIDD
        [{ results := [[(nm "iso3", Cell.str (nm "TCD")), (nm "year", Cell.int 2020),
                        (nm "start_date", Cell.str (nm "2020-01-01")),
                        (nm "displacement", Cell.int 42)]], next := none }]
        GiddIso.noCodes none none none none
        (GiddInd.sel [(nm "displacement", nm "Disaster Displacement")])).toOption.map
      (fun t => t.cols) = some (giddBase ++ [nm "displacement"]))
    ∧ ((get_data_GIDD
        [{ results := [[(nm "iso3", Cell.str (nm "TCD")), (nm "year", Cell.int 2020),
                        (nm "start_date", Cell.str (nm "2020-01-01")),
                        (nm "displacement", Cell.int 42)]], next := none }]
        GiddIso.noCodes none none none none
        (GiddInd.sel [(nm "displacement", nm "Disaster Displacement")])).toOption.map
      (fun t => t.cols) ≠ some (giddBase ++ [nm "Disaster Displacement"])) := by
  constructor
  · rfl
  · decide

/-- C1 (amended): for every `get_data_GIDD` call with an explicit
indicator mapping (and distinct normalized source columns), the returned
table's columns are exactly the base columns (iso3, year, start_date)
followed by the selected indicator columns **under their source names
(the mapping's keys), not renamed**, in the order given by the mapping. -/
theorem claim_C1_gidd_indicator_selection
    (pages : List GiddPage) (iso3 : GiddIso) (start_year end_year : Option Int)
    (hcn htn : Option Str) (m : List (Str × Str)) (out : Table)
    (hnd : (normalizeCols (mkDF (giddCollect pages))).cols.Nodup)
    (hok : get_data_GIDD pages iso3 start_year end_year hcn htn (GiddInd.sel m) = .ok out) :
    out.cols = giddBase ++ m.map (fun kv => kv.1) := by
  unfold get_data_GIDD at hok
  obtain ⟨d1, h1, hok⟩ := bind_ok_iff.mp hok
  obtain ⟨d2, h2, hok⟩ := bind_ok_iff.mp hok
  obtain ⟨d3, h3, hok⟩ := bind_ok_iff.mp hok
  obtain ⟨d4, h4, hok⟩ := bind_ok_iff.mp hok
  obtain ⟨d5, h5, hok⟩ := bind_ok_iff.mp hok
  obtain ⟨d6, h6, hok⟩ := bind_ok_iff.mp hok
  obtain ⟨d7, h7, hok⟩ := bind_ok_iff.mp hok
  have hcols6 : d6.cols = (normalizeCols (mkDF (giddCollect pages))).cols := by
    rw [(hazardStep_ok h6).1, (hazardStep_ok h5).1, (endYearStep_ok h4).1,
      (startYearStep_ok h3).1, (giddIso3Step_ok h2).1, yearCoerce_ok_cols h1]
  have h7s : selectCols d6 (giddBase ++ m.map (fun kv => kv.1)) = .ok d7 := h7
  have hnd6 : d6.cols.Nodup := hcols6 ▸ hnd
  have hsel := selectCols_ok_cols hnd6 h7s
  have hout : resetIndex d7 = out := by
    injection hok
  rw [← hout]
  exact hsel

/-- Witness for the amended C1 at a concrete input. -/
theorem claim_C1_witness :
    get_data_GIDD
        [{ results := [[(nm "iso3", Cell.str (nm "TCD")), (nm "year", Cell.int 2020),
                        (nm "start_date", Cell.str (nm "2020-01-01")),
                        (nm "displacement", Cell.int 42)]], next := none }]
        GiddIso.noCodes none none none none
        (GiddInd.sel [(nm "displacement", nm "Disaster Displacement")])
      = .ok { cols := [nm "iso3", nm "year", nm "start_date", nm "displacement"],
              index := [0],
              rows := [[Cell.str (nm "TCD"), Cell.int 2020,
                        Cell.str (nm "2020-01-01"), Cell.int 42]] }
    ∧ Table.cols
        { cols := [nm "iso3", nm "year", nm "start_date", nm "displacement"],
          index := [0],
          rows := [[Cell.str (nm "TCD"), Cell.int 2020,
                    Cell.str (nm "2020-01-01"), Cell.int 42]] }
      = giddBase ++ [(nm "displacement", nm "Disaster Displacement")].map (fun kv => kv.1) := by
  constructor
  · rfl
  · exact claim_C1_gidd_indicator_selection
      [{ results := [[(nm "iso3", Cell.str (nm "TCD")), (nm "year", Cell.int 2020),
                      (nm "start_date", Cell.str (nm "2020-01-01")),
                      (nm "displacement", Cell.int 42)]], next := none }]
      GiddIso.noCodes none none none none
      [(nm "displacement", nm "Disaster Displacement")]
      { cols := [nm "iso3", nm "year", nm "start_date", nm "displacement"],
        index := [0],
        rows := [[Cell.str (nm "TCD"), Cell.int 2020,
                  Cell.str (nm "2020-01-01"), Cell.int 42]] }
      (by decide) rfl

/-- C2 (counterexample): a `get_data_WB` call whose year filter drops the
first fetched row returns a table with index `[1]` — the pandas labels
surviving the filter — not a dense 0-based sequence: `get_data_WB` does
not reset the index before returning. -/
theorem claim_C2_counterexample :
    ((get_data_WB [(nm "X", nm "GDP")]
        (fun _ =>
          [{ date := 2000, value := Cell.int 5, country := nm "Chad",
             countryiso3code := some (nm "TCD"), countryId := nm "TD" },
           { date := 2010, value := Cell.int 7, country := nm "Chad",
             countryiso3code := some (nm "TCD"), countryId := nm "TD" }])
        (some 2005) none).index = [1])
    ∧ ((get_data_WB [(nm "X", nm "GDP")]
        (fun _ =>
          [{ date := 2000, value := Cell.int 5, country := nm "Chad",
             countryiso3code := some (nm "TCD"), countryId := nm "TD" },
           { date := 2010, value := Cell.int 7, country := nm "Chad",
             countryiso3code := some (nm "TCD"), countryId := nm "TD" }])
        (some 2005) none).index
      ≠ List.range (get_data_WB [(nm "X", nm "GDP")]
        (fun _ =>
          [{ date := 2000, value := Cell.int 5, country := nm "Chad",
             countryiso3code := some (nm "TCD"), countryId := nm "TD" },
           { date := 2010, value := Cell.int 7, country := nm "Chad",
             countryiso3code := some (nm "TCD"), countryId := nm "TD" }])
        (some 2005) none).rows.length) := by
  constructor
  · rfl
  · decide

/-- C2 (amended): `get_data_HDI`, `get_data_IDMC` and `get_data_GIDD`
reset the row index to a dense 0-based sequence before returning;
`get_data_WB` does not (see the counterexample). -/
theorem claim_C2_index_reset
    (rawH : Table) (indH : List (Str × Str)) (cs : Option (List Str))
    (sH eH : Option Int) (outH : Table)
    (hH : get_data_HDI rawH indH cs sH eH = .ok outH)
    (rawI : Table) (indI : IndSpec) (iso3I : Option (List Str))
    (sI eI : Option Int) (hcnI htnI : Option Str) (outI : Table)
    (hI : get_data_IDMC rawI indI iso3I sI eI hcnI htnI = .ok outI)
    (pages : List GiddPage) (iso3G : GiddIso) (sG eG : Option Int)
    (hcnG htnG : Option Str) (indG : GiddInd) (outG : Table)
    (hG : get_data_GIDD pages iso3G sG eG hcnG htnG indG = .ok outG) :
    outH.index = List.range outH.rows.length
    ∧ outI.index = List.range outI.rows.length
    ∧ outG.index = List.range outG.rows.length := by
  refine ⟨?_, ?_, ?_⟩
  · unfold get_data_HDI at hH
    obtain ⟨d1, h1, hH⟩ := bind_ok_iff.mp hH
    injection hH with hH2
    rw [← hH2]
    rfl
  · unfold get_data_IDMC at hI
    obtain ⟨d1, h1, hI⟩ := bind_ok_iff.mp hI
    obtain ⟨d2, h2, hI⟩ := bind_ok_iff.mp hI
    obtain ⟨d3, h3, hI⟩ := bind_ok_iff.mp hI
    obtain ⟨d4, h4, hI⟩ := bind_ok_iff.mp hI
    obtain ⟨d5, h5, hI⟩ := bind_ok_iff.mp hI
    obtain ⟨d6, h6, hI⟩ := bind_ok_iff.mp hI
    obtain ⟨d7, h7, hI⟩ := bind_ok_iff.mp hI
    injection hI with hI2
    rw [← hI2]
    rfl
  · unfold get_data_GIDD at hG
    obtain ⟨d1, h1, hG⟩ := bind_ok_iff.mp hG
    obtain ⟨d2, h2, hG⟩ := bind_ok_iff.mp hG
    obtain ⟨d3, h3, hG⟩ := bind_ok_iff.mp hG
    obtain ⟨d4, h4, hG⟩ := bind_ok_iff.mp hG
    obtain ⟨d5, h5, hG⟩ := bind_ok_iff.mp hG
    obtain ⟨d6, h6, hG⟩ := bind_ok_iff.mp hG
    obtain ⟨d7, h7, hG⟩ := bind_ok_iff.mp hG
    injection hG with hG2
    rw [← hG2]
    rfl

/-- Witness for the amended C2 at concrete inputs for all three
resetting functions. -/
theorem claim_C2_witness :
    Table.index
        { cols := hdiLongCols, index := [0],
          rows := [[Cell.str (nm "AAA"), Cell.str (nm "Aland"), Cell.str (nm "R1"),
                    Cell.int 10, Cell.str (nm "hdi"), Cell.int 1990, Cell.str (nm "HDI")]] }
      = List.range (Table.rows
        { cols := hdiLongCols, index := [0],
          rows := [[Cell.str (nm "AAA"), Cell.str (nm "Aland"), Cell.str (nm "R1"),
                    Cell.int 10, Cell.str (nm "hdi"), Cell.int 1990, Cell.str (nm "HDI")]] }).length
    ∧ Table.index
        { cols := [nm "iso3", nm "start_date", nm "year"], index := [0],
          rows := [[Cell.str (nm "AAA"), Cell.str (nm "d"), Cell.int 2020]] }
      = List.range (Table.rows
        { cols := [nm "iso3", nm "start_date", nm "year"], index := [0],
          rows := [[Cell.str (nm "AAA"), Cell.str (nm "d"), Cell.int 2020]] }).length
    ∧ Table.index
        { cols := [nm "iso3", nm "year", nm "start_date"], index := [0],
          rows := [[Cell.str (nm "TCD"), Cell.int 2020, Cell.str (nm "d")]] }
      = List.range (Table.rows
        { cols := [nm "iso3", nm "year", nm "start_date"], index := [0],
          rows := [[Cell.str (nm "TCD"), Cell.int 2020, Cell.str (nm "d")]] }).length :=
  claim_C2_index_reset
    { cols := [nm "iso3", nm "country", nm "region", nm "hdi_1990"],
      index := [0],
      rows := [[Cell.str (nm "AAA"), Cell.str (nm "Aland"), Cell.str (nm "R1"),
                Cell.int 10]] }
    [(nm "hdi", nm "HDI")] none none none
    { cols := hdiLongCols, index := [0],
      rows := [[Cell.str (nm "AAA"), Cell.str (nm "Aland"), Cell.str (nm "R1"),
                Cell.int 10, Cell.str (nm "hdi"), Cell.int 1990, Cell.str (nm "HDI")]] }
    rfl
    { cols := [nm "iso3", nm "start_date", nm "year"], index := [0],
      rows := [[Cell.str (nm "AAA"), Cell.str (nm "d"), Cell.int 2020]] }
    IndSpec.all none none none none none
    { cols := [nm "iso3", nm "start_date", nm "year"], index := [0],
      rows := [[Cell.str (nm "AAA"), Cell.str (nm "d"), Cell.int 2020]] }
    rfl
    [{ results := [[(nm "iso3", Cell.str (nm "TCD")), (nm "year", Cell.int 2020),
                    (nm "start_date", Cell.str (nm "d"))]], next := none }]
    GiddIso.noCodes none none none none GiddInd.all
    { cols := [nm "iso3", nm "year", nm "start_date"], index := [0],
      rows := [[Cell.str (nm "TCD"), Cell.int 2020, Cell.str (nm "d")]] }
    rfl

/-- C4 (counterexample): `get_data_IDMC` called with the explicit bound
`start_year = 0` returns a row whose year is `-1`: the truthiness test
`if start_year:` treats a zero bound as absent, so the returned row
violates `start_year <= year` even though a year-range bound was
supplied. -/
theorem claim_C4_counterexample :
    ((get_data_IDMC
        { cols := [nm "iso3", nm "start_date", nm "year"], index := [0],
          rows := [[Cell.str (nm "AAA"), Cell.str (nm "d"), Cell.int (-1)]] }
        IndSpec.all none (some 0) none none none).toOption.map
      (fun t => t.rows.map (fun r => cellAt t.cols r (nm "year")))
      = some [Cell.int (-1)])
    ∧ ¬ ((0 : Int) ≤ -1) := by
  constructor
  · rfl
  · decide

/-- C4 (amended): year bounds are inclusive and an omitted bound imposes
no constraint; `get_data_HDI` treats exactly `None` as omitted, while
`get_data_IDMC` and `get_data_GIDD` use Python truthiness, so a zero
bound is additionally treated as omitted there.  Every *active* bound is
satisfied by the year of every returned row (stated here with the
all-columns indicator mode for IDMC/GIDD, whose indicator selection is
orthogonal to the year filter, and distinct normalized columns for
IDMC). -/
theorem claim_C4_year_bounds
    (rawH : Table) (indH : List (Str × Str)) (cs : Option (List Str))
    (sH eH : Option Int) (outH : Table)
    (hH : get_data_HDI rawH indH cs sH eH = .ok outH)
    (rawI : Table) (iso3I : Option (List Str)) (sI eI : Option Int)
    (hcnI htnI : Option Str) (outI : Table)
    (hndI : (normalizeCols rawI).cols.Nodup)
    (hI : get_data_IDMC rawI IndSpec.all iso3I sI eI hcnI htnI = .ok outI)
    (pages : List GiddPage) (iso3G : GiddIso) (sG eG : Option Int)
    (hcnG htnG : Option Str) (outG : Table)
    (hG : get_data_GIDD pages iso3G sG eG hcnG htnG GiddInd.all = .ok outG) :
    (∀ row ∈ outH.rows,
       (∀ v, sH = some v → geYearPred v (cellAt outH.cols row (nm "year")) = true)
       ∧ (∀ v, eH = some v → leYearPred v (cellAt outH.cols row (nm "year")) = true))
    ∧ (∀ row ∈ outI.rows,
       (pyTruthyInt sI = true →
         geYearPred (sI.getD 0) (cellAt outI.cols row (nm "year")) = true)
       ∧ (pyTruthyInt eI = true →
         leYearPred (eI.getD 0) (cellAt outI.cols row (nm "year")) = true))
    ∧ (∀ row ∈ outG.rows,
       (pyTruthyInt sG = true →
         geYearPred (sG.getD 0) (cellAt outG.cols row (nm "year")) = true)
       ∧ (pyTruthyInt eG = true →
         leYearPred (eG.getD 0) (cellAt outG.cols row (nm "year")) = true)) := by
  refine ⟨?_, ?_, ?_⟩
  · unfold get_data_HDI at hH
    obtain ⟨long, hlong, hH⟩ := bind_ok_iff.mp hH
    injection hH with hH2
    subst hH2
    intro row hrow
    have hrow2 : row ∈ (optEndFilter (nm "year") eH
        (optStartFilter (nm "year") sH (hdiCountriesFilter cs long))).rows := hrow
    constructor
    · intro v hv
      subst hv
      have hrow3 := optEndFilter_mem hrow2
      have hs := optStartFilter_sound hrow3
      rw [hdiCountriesFilter_cols] at hs
      rw [resetIndex_cols, optEndFilter_cols, optStartFilter_cols, hdiCountriesFilter_cols]
      exact hs
    · intro v hv
      subst hv
      have he := optEndFilter_sound hrow2
      rw [optStartFilter_cols, hdiCountriesFilter_cols] at he
      rw [resetIndex_cols, optEndFilter_cols, optStartFilter_cols, hdiCountriesFilter_cols]
      exact he
  · unfold get_data_IDMC at hI
    obtain ⟨d1, h1, hI⟩ := bind_ok_iff.mp hI
    obtain ⟨d2, h2, hI⟩ := bind_ok_iff.mp hI
    obtain ⟨d3, h3, hI⟩ := bind_ok_iff.mp hI
    obtain ⟨d4, h4, hI⟩ := bind_ok_iff.mp hI
    obtain ⟨d5, h5, hI⟩ := bind_ok_iff.mp hI
    obtain ⟨d6, h6, hI⟩ := bind_ok_iff.mp hI
    obtain ⟨d7, h7, hI⟩ := bind_ok_iff.mp hI
    injection hI with hI2
    subst hI2
    have hcols2 : d2.cols = (normalizeCols rawI).cols := by
      rw [(iso3Step_ok h2).1, yearCoerce_ok_cols h1]
    have hcols6 : d6.cols = (normalizeCols rawI).cols := by
      rw [(hazardStep_ok h6).1, (hazardStep_ok h5).1, (endYearStep_ok h4).1,
        (startYearStep_ok h3).1, hcols2]
    have hnd6 : d6.cols.Nodup := hcols6 ▸ hndI
    intro row hrow
    have hrow7 : row ∈ d7.rows := hrow
    have h7s : selectCols d6 (idmcBase ++ d6.cols.filter
        (fun c => !(idmcBase.contains c))) = .ok d7 := h7
    obtain ⟨r, hr6, hcell⟩ := selectCols_cellAt hnd6 h7s hrow7
    have hyearmem : nm "year" ∈ idmcBase ++ d6.cols.filter
        (fun c => !(idmcBase.contains c)) :=
      List.mem_append_left _ (by decide)
    have hcy := hcell (nm "year") hyearmem
    have hr5 : r ∈ d5.rows := (hazardStep_ok h6).2 r hr6
    have hr4 : r ∈ d4.rows := (hazardStep_ok h5).2 r hr5
    constructor
    · intro hst
      have hs := startYearStep_sound hst h3 r ((endYearStep_ok h4).2 r hr4)
      rw [resetIndex_cols, hcy]
      rw [hcols2, ← hcols6] at hs
      exact hs
    · intro hen
      have he := endYearStep_sound hen h4 r hr4
      rw [resetIndex_cols, hcy]
      rw [(startYearStep_ok h3).1, hcols2, ← hcols6] at he
      exact he
  · unfold get_data_GIDD at hG
    obtain ⟨d1, h1, hG⟩ := bind_ok_iff.mp hG
    obtain ⟨d2, h2, hG⟩ := bind_ok_iff.mp hG
    obtain ⟨d3, h3, hG⟩ := bind_ok_iff.mp hG
    obtain ⟨d4, h4, hG⟩ := bind_ok_iff.mp hG
    obtain ⟨d5, h5, hG⟩ := bind_ok_iff.mp hG
    obtain ⟨d6, h6, hG⟩ := bind_ok_iff.mp hG
    obtain ⟨d7, h7, hG⟩ := bind_ok_iff.mp hG
    injection hG with hG2
    subst hG2
    have h7e : d6 = d7 := by injection h7
    subst h7e
    intro row hrow
    have hrow6 : row ∈ d6.rows := hrow
    have hr5 : row ∈ d5.rows := (hazardStep_ok h6).2 row hrow6
    have hr4 : row ∈ d4.rows := (hazardStep_ok h5).2 row hr5
    constructor
    · intro hst
      have hs := startYearStep_sound hst h3 row ((endYearStep_ok h4).2 row hr4)
      rw [show (resetIndex d6).cols = d6.cols from rfl]
      rw [(hazardStep_ok h6).1, (hazardStep_ok h5).1, (endYearStep_ok h4).1,
        (startYearStep_ok h3).1]
      exact hs
    · intro hen
      have he := endYearStep_sound hen h4 row hr4
      rw [show (resetIndex d6).cols = d6.cols from rfl]
      rw [(hazardStep_ok h6).1, (hazardStep_ok h5).1, (endYearStep_ok h4).1,
        (startYearStep_ok h3).1]
      rw [(startYearStep_ok h3).1] at he
      exact he

/-- Witness for the amended C4 at concrete inputs with active lower
bounds for all three pipelines. -/
theorem claim_C4_witness :
    (∀ row ∈ (Table.rows
        { cols := hdiLongCols, index := [0],
          rows := [[Cell.str (nm "AAA"), Cell.str (nm "Aland"), Cell.str (nm "R1"),
                    Cell.int 11, Cell.str (nm "hdi"), Cell.int 2000, Cell.str (nm "HDI")]] }),
       (∀ v, (some 1995 : Option Int) = some v →
         geYearPred v (cellAt hdiLongCols row (nm "year")) = true)
       ∧ (∀ v, (none : Option Int) = some v →
         leYearPred v (cellAt hdiLongCols row (nm "year")) = true))
    ∧ (∀ row ∈ (Table.rows
        { cols := [nm "iso3", nm "start_date", nm "year"], index := [0],
          rows := [[Cell.str (nm "AAA"), Cell.str (nm "d"), Cell.int 2020]] }),
       (pyTruthyInt (some 2018) = true →
         geYearPred ((some (2018 : Int)).getD 0)
           (cellAt [nm "iso3", nm "start_date", nm "year"] row (nm "year")) = true)
       ∧ (pyTruthyInt (none : Option Int) = true →
         leYearPred ((none : Option Int).getD 0)
           (cellAt [nm "iso3", nm "start_date", nm "year"] row (nm "year")) = true))
    ∧ (∀ row ∈ (Table.rows
        { cols := [nm "iso3", nm "year", nm "start_date"], index := [0],
          rows := [[Cell.str (nm "TCD"), Cell.int 2020, Cell.str (nm "d")]] }),
       (pyTruthyInt (some 2015) = true →
         geYearPred ((some (2015 : Int)).getD 0)
           (cellAt [nm "iso3", nm "year", nm "start_date"] row (nm "year")) = true)
       ∧ (pyTruthyInt (none : Option Int) = true →
         leYearPred ((none : Option Int).getD 0)
           (cellAt [nm "iso3", nm "year", nm "start_date"] row (nm "year")) = true)) :=
  claim_C4_year_bounds
    { cols := [nm "iso3", nm "country", nm "region", nm "hdi_1990", nm "hdi_2000"],
      index := [0],
      rows := [[Cell.str (nm "AAA"), Cell.str (nm "Aland"), Cell.str (nm "R1"),
                Cell.int 10, Cell.int 11]] }
    [(nm "hdi", nm "HDI")] none (some 1995) none
    { cols := hdiLongCols, index := [0],
      rows := [[Cell.str (nm "AAA"), Cell.str (nm "Aland"), Cell.str (nm "R1"),
                Cell.int 11, Cell.str (nm "hdi"), Cell.int 2000, Cell.str (nm "HDI")]] }
    rfl
    { cols := [nm "iso3", nm "start_date", nm "year"], index := [0, 1],
      rows := [[Cell.str (nm "AAA"), Cell.str (nm "d"), Cell.int 2015],
               [Cell.str (nm "AAA"), Cell.str (nm "d"), Cell.int 2020]] }
    none (some 2018) none none none
    { cols := [nm "iso3", nm "start_date", nm "year"], index := [0],
      rows := [[Cell.str (nm "AAA"), Cell.str (nm "d"), Cell.int 2020]] }
    (by decide) rfl
    [{ results := [[(nm "iso3", Cell.str (nm "TCD")), (nm "year", Cell.int 2020),
                    (nm "start_date", Cell.str (nm "d"))],
                   [(nm "iso3", Cell.str (nm "TCD")), (nm "year", Cell.int 2010),
                    (nm "start_date", Cell.str (nm "d"))]], next := none }]
    GiddIso.noCodes (some 2015) none none none
    { cols := [nm "iso3", nm "year", nm "start_date"], index := [0],
      rows := [[Cell.str (nm "TCD"), Cell.int 2020, Cell.str (nm "d")]] }
    rfl

/-- C7: for every HDI reshape input (with the identity columns present
and at least one data row): if some selected column's suffix after the
last underscore does not parse as an integer, the reshape fails hard
with a parse error — the `Except` result carries no partial table — and
if every selected suffix parses, no such error occurs and a table is
returned. -/
theorem claim_C7_reshape_parse_failure
    (df : Table) (ind : List (Str × Str))
    (hid : ∀ n ∈ hdiIdVars, n ∈ df.cols)
    (hrows : df.rows ≠ []) :
    ((∃ ix ∈ hdiValueIdxs df.cols ind,
        pyParseIntN (rsplitSuffix (df.cols.getD ix [])) = none)
      → ∃ s, reshape_long_HDI df ind = .error (.parseError s))
    ∧ ((∀ ix ∈ hdiValueIdxs df.cols ind,
        ∃ y, pyParseIntN (rsplitSuffix (df.cols.getD ix [])) = some y)
      → ∃ u, reshape_long_HDI df ind = .ok u) := by
  have hfind := idvars_find_none hid
  constructor
  · rintro ⟨ix, hix, hbad⟩
    obtain ⟨r0, hr0⟩ := List.exists_mem_of_ne_nil df.rows hrows
    have hm : meltRow df.cols ix r0 ∈ (hdiValueIdxs df.cols ind).flatMap
        (fun ix => df.rows.map (fun r => meltRow df.cols ix r)) :=
      List.mem_flatMap.mpr ⟨ix, hix, List.mem_map_of_mem _ hr0⟩
    have hferr : splitYearRow (meltRow df.cols ix r0)
        = .error (.parseError (rsplitSuffix (df.cols.getD ix []))) := by
      rw [splitYearRow_eq (meltRow_getD3 df.cols ix r0), hbad]
    cases hmm : ((hdiValueIdxs df.cols ind).flatMap
        (fun ix => df.rows.map (fun r => meltRow df.cols ix r))).mapM splitYearRow with
    | error e =>
        obtain ⟨x, hx, hxe⟩ := mapM_error_elem hmm
        obtain ⟨s, hs⟩ := splitYearRow_error_shape hxe
        refine ⟨s, ?_⟩
        rw [reshape_body hfind, hmm, hs]
        rfl
    | ok l2 =>
        obtain ⟨b, hb⟩ := mapM_ok_mem_ok hmm _ hm
        rw [hferr] at hb
        cases hb
  · intro hall
    have hok : ∀ m ∈ (hdiValueIdxs df.cols ind).flatMap
        (fun ix => df.rows.map (fun r => meltRow df.cols ix r)),
        ∃ b, splitYearRow m = .ok b := by
      intro m hmm
      obtain ⟨ix, hix, hmr⟩ := List.mem_flatMap.mp hmm
      obtain ⟨r, hr, hre⟩ := List.mem_map.mp hmr
      obtain ⟨y, hy⟩ := hall ix hix
      subst hre
      refine ⟨meltRow df.cols ix r
        ++ [Cell.str (rsplitStem (df.cols.getD ix [])), Cell.int y], ?_⟩
      rw [splitYearRow_eq (meltRow_getD3 df.cols ix r), hy]
    obtain ⟨l2, hl2⟩ := mapM_ok_of_forall hok
    refine ⟨Table.mk hdiLongCols
      (List.range ((l2.map (fun r => r.take 3 ++ r.drop 4)).map
        (fun r => metricNameRow ind r)).length)
      ((l2.map (fun r => r.take 3 ++ r.drop 4)).map
        (fun r => metricNameRow ind r)), ?_⟩
    rw [reshape_body hfind, hl2]
    rfl

/-- Witness for C7: a table whose single selected column `hdi_bad` has a
non-integer suffix makes the reshape fail with a parse error, and the
same table with the column `hdi_1990` reshapes successfully. -/
theorem claim_C7_witness :
    (∃ s, reshape_long_HDI
        { cols := [nm "iso3", nm "country", nm "region", nm "hdi_bad"], index := [0],
          rows := [[Cell.str (nm "AAA"), Cell.str (nm "Aland"), Cell.str (nm "R1"),
                    Cell.int 10]] }
        [(nm "hdi", nm "HDI")] = .error (.parseError s))
    ∧ (∃ u, reshape_long_HDI
        { cols := [nm "iso3", nm "country", nm "region", nm "hdi_1990"], index := [0],
          rows := [[Cell.str (nm "AAA"), Cell.str (nm "Aland"), Cell.str (nm "R1"),
                    Cell.int 10]] }
        [(nm "hdi", nm "HDI")] = .ok u) := by
  constructor
  · exact (claim_C7_reshape_parse_failure
      { cols := [nm "iso3", nm "country", nm "region", nm "hdi_bad"], index := [0],
        rows := [[Cell.str (nm "AAA"), Cell.str (nm "Aland"), Cell.str (nm "R1"),
                  Cell.int 10]] }
      [(nm "hdi", nm "HDI")] (by decide) (by decide)).1 (by decide)
  · refine (claim_C7_reshape_parse_failure
      { cols := [nm "iso3", nm "country", nm "region", nm "hdi_1990"], index := [0],
        rows := [[Cell.str (nm "AAA"), Cell.str (nm "Aland"), Cell.str (nm "R1"),
                  Cell.int 10]] }
      [(nm "hdi", nm "HDI")] (by decide) (by decide)).2 ?_
    intro ix hix
    have h3 : ix = 3 := by
      have hv : hdiValueIdxs
          (Table.mk [nm "iso3", nm "country", nm "region", nm "hdi_1990"] [0]
            [[Cell.str (nm "AAA"), Cell.str (nm "Aland"), Cell.str (nm "R1"),
              Cell.int 10]]).cols
          [(nm "hdi", nm "HDI")] = [3] := by decide
      rw [hv] at hix
      simpa using hix
    subst h3
    exact ⟨1990, by decide⟩

/-- C3 (counterexample): for a two-row table with value columns
`hdi_1990, hdi_2000`, the reshaped rows' `iso3` cells read
AAA, BBB, AAA, BBB — the output is grouped by selected column (all rows
for `hdi_1990` first), refuting the claimed (original row order) ×
(selected-column order) ordering, which would give AAA, AAA, BBB, BBB. -/
theorem claim_C3_counterexample :
    ((reshape_long_HDI
        { cols := [nm "iso3", nm "country", nm "region", nm "hdi_1990", nm "hdi_2000"],
          index := [0, 1],
          rows := [[Cell.str (nm "AAA"), Cell.str (nm "Aland"), Cell.str (nm "R1"),
                    Cell.int 10, Cell.int 11],
                   [Cell.str (nm "BBB"), Cell.str (nm "Bland"), Cell.str (nm "R2"),
                    Cell.int 20, Cell.int 21]] }
        [(nm "hdi", nm "Human Development Index")]).toOption.map
      (fun t => t.rows.map (fun r => r.getD 0 Cell.null))
      = some [Cell.str (nm "AAA"), Cell.str (nm "BBB"),
              Cell.str (nm "AAA"), Cell.str (nm "BBB")])
    ∧ ((reshape_long_HDI
        { cols := [nm "iso3", nm "country", nm "region", nm "hdi_1990", nm "hdi_2000"],
          index := [0, 1],
          rows := [[Cell.str (nm "AAA"), Cell.str (nm "Aland"), Cell.str (nm "R1"),
                    Cell.int 10, Cell.int 11],
                   [Cell.str (nm "BBB"), Cell.str (nm "Bland"), Cell.str (nm "R2"),
                    Cell.int 20, Cell.int 21]] }
        [(nm "hdi", nm "Human Development Index")]).toOption.map
      (fun t => t.rows.map (fun r => r.getD 0 Cell.null))
      ≠ some [Cell.str (nm "AAA"), Cell.str (nm "AAA"),
              Cell.str (nm "BBB"), Cell.str (nm "BBB")]) := by
  constructor
  · rfl
  · decide

/-- C3 (amended): a successful reshape of a table with R rows and V
selected value columns yields exactly `V * R` long rows, ordered as
(selected-column order) × (original row order) — column-major, the long
row at position `j * R + i` coming from value column `j` and source row
`i` — and that long row carries the identity cells of row `i`, the
original wide cell at (row `i`, column `j`) as its value (so re-pivoting
on (metric, year) recovers the wide values), the metric/year split of
the column's name, and the looked-up metric display name. -/
theorem claim_C3_reshape_shape
    (df : Table) (ind : List (Str × Str)) (out : Table)
    (hok : reshape_long_HDI df ind = .ok out) :
    out.rows.length = (hdiValueIdxs df.cols ind).length * df.rows.length
    ∧ ∀ j i, j < (hdiValueIdxs df.cols ind).length → i < df.rows.length →
      ∃ y, pyParseIntN (rsplitSuffix
            (df.cols.getD ((hdiValueIdxs df.cols ind).getD j 0) [])) = some y
        ∧ out.rows.getD (j * df.rows.length + i) []
          = hdiIdVars.map (fun n => cellAt df.cols (df.rows.getD i []) n)
            ++ [(df.rows.getD i []).getD ((hdiValueIdxs df.cols ind).getD j 0) Cell.null,
                Cell.str (rsplitStem (df.cols.getD ((hdiValueIdxs df.cols ind).getD j 0) [])),
                Cell.int y,
                (((ind.find? (fun kv => kv.1 = rsplitStem
                    (df.cols.getD ((hdiValueIdxs df.cols ind).getD j 0) []))).map
                  (fun kv => Cell.str kv.2)).getD Cell.null)] := by
  cases hfind : hdiIdVars.find? (fun n => !(df.cols.contains n)) with
  | some n =>
      rw [reshape_err_of_find_some hfind] at hok
      cases hok
  | none =>
      rw [reshape_body hfind] at hok
      cases hmm : ((hdiValueIdxs df.cols ind).flatMap
          (fun ix => df.rows.map (fun r => meltRow df.cols ix r))).mapM splitYearRow with
      | error e =>
          rw [hmm] at hok
          simp [Except.bind] at hok
      | ok l2 =>
          rw [hmm] at hok
          simp only [Except.bind] at hok
          injection hok with hok2
          subst hok2
          have hlen2 : l2.length
              = (hdiValueIdxs df.cols ind).length * df.rows.length := by
            rw [mapM_ok_length hmm, flatMap_map_length]
          constructor
          · simp [hlen2]
          · intro j i hj hi
            have hkb : j * df.rows.length + i
                < (hdiValueIdxs df.cols ind).length * df.rows.length := by
              calc j * df.rows.length + i
                  < j * df.rows.length + df.rows.length := by omega
                _ = (j + 1) * df.rows.length := (Nat.succ_mul j df.rows.length).symm
                _ ≤ (hdiValueIdxs df.cols ind).length * df.rows.length :=
                    Nat.mul_le_mul_right _ hj
            have hkmelt : j * df.rows.length + i
                < ((hdiValueIdxs df.cols ind).flatMap
                    (fun ix => df.rows.map (fun r => meltRow df.cols ix r))).length := by
              rw [flatMap_map_length]
              exact hkb
            have hkl2 : j * df.rows.length + i < l2.length := by
              rw [hlen2]
              exact hkb
            have hsy := mapM_ok_getD [] [] hmm (j * df.rows.length + i) hkmelt
            rw [getD_flatMap_map _ _ _ _ j i hj hi] at hsy
            rw [splitYearRow_eq (meltRow_getD3 df.cols
              ((hdiValueIdxs df.cols ind).getD j 0) (df.rows.getD i []))] at hsy
            cases hp : pyParseIntN (rsplitSuffix
                (df.cols.getD ((hdiValueIdxs df.cols ind).getD j 0) [])) with
            | none => rw [hp] at hsy; cases hsy
            | some y =>
                rw [hp] at hsy
                injection hsy with hw
                refine ⟨y, rfl, ?_⟩
                show (((l2.map (fun r => r.take 3 ++ r.drop 4)).map
                    (fun r => metricNameRow ind r)).getD
                  (j * df.rows.length + i) []) = _
                rw [List.map_map]
                have hklen : j * df.rows.length + i
                    < (l2.map ((fun r => metricNameRow ind r)
                        ∘ (fun r => r.take 3 ++ r.drop 4))).length := by
                  rw [List.length_map]
                  exact hkl2
                rw [List.getD_eq_getElem _ _ hklen, List.getElem_map]
                rw [List.getD_eq_getElem _ _ hkl2] at hw
                rw [← hw]
                rfl

/-- Witness for the amended C3: a one-row table with two selected value
columns reshapes to 2 × 1 long rows. -/
theorem claim_C3_witness :
    (Table.mk hdiLongCols [0, 1]
      [[Cell.str (nm "AAA"), Cell.str (nm "Aland"), Cell.str (nm "R1"),
        Cell.int 10, Cell.str (nm "hdi"), Cell.int 1990, Cell.str (nm "HDI")],
       [Cell.str (nm "AAA"), Cell.str (nm "Aland"), Cell.str (nm "R1"),
        Cell.int 11, Cell.str (nm "hdi"), Cell.int 2000, Cell.str (nm "HDI")]]).rows.length
      = (hdiValueIdxs
          [nm "iso3", nm "country", nm "region", nm "hdi_1990", nm "hdi_2000"]
          [(nm "hdi", nm "HDI")]).length
        * (Table.mk
            [nm "iso3", nm "country", nm "region", nm "hdi_1990", nm "hdi_2000"] [0]
            [[Cell.str (nm "AAA"), Cell.str (nm "Aland"), Cell.str (nm "R1"),
              Cell.int 10, Cell.int 11]]).rows.length :=
  (claim_C3_reshape_shape
    (Table.mk [nm "iso3", nm "country", nm "region", nm "hdi_1990", nm "hdi_2000"] [0]
      [[Cell.str (nm "AAA"), Cell.str (nm "Aland"), Cell.str (nm "R1"),
        Cell.int 10, Cell.int 11]])
    [(nm "hdi", nm "HDI")]
    (Table.mk hdiLongCols [0, 1]
      [[Cell.str (nm "AAA"), Cell.str (nm "Aland"), Cell.str (nm "R1"),
        Cell.int 10, Cell.str (nm "hdi"), Cell.int 1990, Cell.str (nm "HDI")],
       [Cell.str (nm "AAA"), Cell.str (nm "Aland"), Cell.str (nm "R1"),
        Cell.int 11, Cell.str (nm "hdi"), Cell.int 2000, Cell.str (nm "HDI")]])
    rfl).1

/-- C8: for `get_data_IDMC` and `get_data_GIDD` (the retrieval functions
whose criteria and indicator keys name source columns): a call succeeds
only if every supplied filter criterion's column and every requested
indicator key is present in the normalized source table (nothing is
silently skipped), and whenever such a column is absent the call fails
with a missing-column `KeyError` (and, the result being `Except`, no
partial table is returned).  In `get_data_HDI` and `get_data_WB` the
filter columns (`country`/`year`, `Year`) are constructed by the
pipeline itself, so no criterion can name an absent column. -/
theorem claim_C8_missing_column_failure :
    (∀ (raw : Table) (ind : IndSpec) (iso3 : Option (List Str)) (s e : Option Int)
      (hcn htn : Option Str) (out : Table),
      get_data_IDMC raw ind iso3 s e hcn htn = .ok out →
      nm "year" ∈ (normalizeCols raw).cols
      ∧ (∀ v vs, iso3 = some (v :: vs) → nm "iso3" ∈ (normalizeCols raw).cols)
      ∧ (∀ v vs, hcn = some (v :: vs) →
          nm "hazard_category_name" ∈ (normalizeCols raw).cols)
      ∧ (∀ v vs, htn = some (v :: vs) →
          nm "hazard_type_name" ∈ (normalizeCols raw).cols)
      ∧ (∀ m, ind = .sel m → ∀ kv ∈ m, kv.1 ∈ (normalizeCols raw).cols))
    ∧ (∀ (raw : Table) (ind : IndSpec) (iso3 : Option (List Str)) (s e : Option Int)
      (hcn htn : Option Str),
      ((¬ nm "year" ∈ (normalizeCols raw).cols)
        ∨ (∃ v vs, iso3 = some (v :: vs) ∧ ¬ nm "iso3" ∈ (normalizeCols raw).cols)
        ∨ (∃ v vs, hcn = some (v :: vs)
            ∧ ¬ nm "hazard_category_name" ∈ (normalizeCols raw).cols)
        ∨ (∃ v vs, htn = some (v :: vs)
            ∧ ¬ nm "hazard_type_name" ∈ (normalizeCols raw).cols)
        ∨ (∃ m, ind = .sel m ∧ ∃ kv ∈ m, ¬ kv.1 ∈ (normalizeCols raw).cols)) →
      ∃ c, get_data_IDMC raw ind iso3 s e hcn htn = .error (.keyError c))
    ∧ (∀ (pages : List GiddPage) (iso3 : GiddIso) (s e : Option Int)
      (hcn htn : Option Str) (ind : GiddInd) (out : Table),
      get_data_GIDD pages iso3 s e hcn htn ind = .ok out →
      nm "year" ∈ (normalizeCols (mkDF (giddCollect pages))).cols
      ∧ (∀ l, iso3 = .codes l →
          nm "iso3" ∈ (normalizeCols (mkDF (giddCollect pages))).cols)
      ∧ (∀ v vs, hcn = some (v :: vs) →
          nm "hazard_category_name" ∈ (normalizeCols (mkDF (giddCollect pages))).cols)
      ∧ (∀ v vs, htn = some (v :: vs) →
          nm "hazard_type_name" ∈ (normalizeCols (mkDF (giddCollect pages))).cols)
      ∧ (∀ m, ind = .sel m →
          ∀ kv ∈ m, kv.1 ∈ (normalizeCols (mkDF (giddCollect pages))).cols))
    ∧ (∀ (pages : List GiddPage) (iso3 : GiddIso) (s e : Option Int)
      (hcn htn : Option Str) (ind : GiddInd),
      ((¬ nm "year" ∈ (normalizeCols (mkDF (giddCollect pages))).cols)
        ∨ (∃ l, iso3 = .codes l
            ∧ ¬ nm "iso3" ∈ (normalizeCols (mkDF (giddCollect pages))).cols)
        ∨ (∃ v vs, hcn = some (v :: vs)
            ∧ ¬ nm "hazard_category_name" ∈ (normalizeCols (mkDF (giddCollect pages))).cols)
        ∨ (∃ v vs, htn = some (v :: vs)
            ∧ ¬ nm "hazard_type_name" ∈ (normalizeCols (mkDF (giddCollect pages))).cols)
        ∨ (∃ m, ind = .sel m
            ∧ ∃ kv ∈ m, ¬ kv.1 ∈ (normalizeCols (mkDF (giddCollect pages))).cols)) →
      ∃ c, get_data_GIDD pages iso3 s e hcn htn ind = .error (.keyError c)) := by
  refine ⟨?_, ?_, ?_, ?_⟩
  · intro raw ind iso3 s e hcn htn out h
    obtain ⟨hy, hi, hc, ht, _, hk⟩ := idmc_ok_required h
    exact ⟨hy, hi, hc, ht, hk⟩
  · intro raw ind iso3 s e hcn htn hd
    cases hres : get_data_IDMC raw ind iso3 s e hcn htn with
    | ok out =>
        exfalso
        obtain ⟨hy, hi, hc, ht, _, hk⟩ := idmc_ok_required hres
        rcases hd with hd | ⟨v, vs, hv, hd⟩ | ⟨v, vs, hv, hd⟩ | ⟨v, vs, hv, hd⟩
          | ⟨m, hm, kv, hkv, hd⟩
        · exact hd hy
        · exact hd (hi v vs hv)
        · exact hd (hc v vs hv)
        · exact hd (ht v vs hv)
        · exact hd (hk m hm kv hkv)
    | error er =>
        obtain ⟨c, hcv⟩ := idmc_error_shape hres
        exact ⟨c, by rw [hcv]⟩
  · intro pages iso3 s e hcn htn ind out h
    obtain ⟨hy, hi, hc, ht, hk⟩ := gidd_ok_required h
    exact ⟨hy, hi, hc, ht, fun m hm => (hk m hm).2⟩
  · intro pages iso3 s e hcn htn ind hd
    cases hres : get_data_GIDD pages iso3 s e hcn htn ind with
    | ok out =>
        exfalso
        obtain ⟨hy, hi, hc, ht, hk⟩ := gidd_ok_required hres
        rcases hd with hd | ⟨l, hl, hd⟩ | ⟨v, vs, hv, hd⟩ | ⟨v, vs, hv, hd⟩
          | ⟨m, hm, kv, hkv, hd⟩
        · exact hd hy
        · exact hd (hi l hl)
        · exact hd (hc v vs hv)
        · exact hd (ht v vs hv)
        · exact hd ((hk m hm).2 kv hkv)
    | error er =>
        obtain ⟨c, hcv⟩ := gidd_error_shape hres
        exact ⟨c, by rw [hcv]⟩

/-- Witness for C8: an IDMC table lacking `hazard_category_name` makes a
call with that filter fail with a `KeyError`. -/
theorem claim_C8_witness :
    ∃ c, get_data_IDMC
        { cols := [nm "iso3", nm "start_date", nm "year"], index := [0],
          rows := [[Cell.str (nm "AAA"), Cell.str (nm "d"), Cell.int 2020]] }
        IndSpec.all none none none (some (nm "Flood")) none
      = .error (.keyError c) :=
  claim_C8_missing_column_failure.2.1
    { cols := [nm "iso3", nm "start_date", nm "year"], index := [0],
      rows := [[Cell.str (nm "AAA"), Cell.str (nm "d"), Cell.int 2020]] }
    IndSpec.all none none none (some (nm "Flood")) none
    (Or.inr (Or.inr (Or.inl ⟨'F'.toNat, (nm "lood"), rfl, by decide⟩)))

/-- C5: for every `get_data_WB` call with two or more indicators (with
distinct result column names, every indicator's fetch non-empty, and the
key's year within the requested bounds): a country-year key present
exactly once in indicator `i`'s fetched records and absent from every
other indicator's records appears exactly once in the output, and that
row holds a missing value in every other indicator's column (position
`3 + j` of the output, whose columns are Country, ISO3, Year followed by
the display names in mapping order). -/
theorem claim_C5_wb_outer_join
    (indicators : List (Str × Str)) (fetch : Str → List WBRec)
    (start_year end_year : Option Int)
    (c i3 : Str) (y : Int) (i : Nat)
    (h2 : 2 ≤ indicators.length)
    (hnd : (wbColOrder indicators).Nodup)
    (hne : ∀ kv ∈ indicators, fetch kv.1 ≠ [])
    (hi : i < indicators.length)
    (huniq : ((fetch ((indicators.getD i ([], [])).1)).filter
        (fun r => recKey r == [Cell.str c, Cell.str i3, Cell.int y])).length = 1)
    (hothers : ∀ j, j < indicators.length → j ≠ i →
        (fetch ((indicators.getD j ([], [])).1)).filter
          (fun r => recKey r == [Cell.str c, Cell.str i3, Cell.int y]) = [])
    (hys : ∀ v, start_year = some v → v ≤ y)
    (hye : ∀ v, end_year = some v → y ≤ v) :
    (get_data_WB indicators fetch start_year end_year).cols = wbColOrder indicators
    ∧ (keyFilter (get_data_WB indicators fetch start_year end_year).rows
        [Cell.str c, Cell.str i3, Cell.int y]).length = 1
    ∧ ∀ r ∈ keyFilter (get_data_WB indicators fetch start_year end_year).rows
        [Cell.str c, Cell.str i3, Cell.int y],
      ∀ j, j < indicators.length → j ≠ i → r.getD (3 + j) Cell.null = Cell.null := by
  cases indicators with
  | nil => simp at h2
  | cons kv0 rest =>
      have hA_wf : wfTable (mkWBTable kv0.2 (fetch kv0.1)) :=
        mkWBTable_wf (hne kv0 (List.mem_cons_self kv0 rest))
      have hts_wf : ∀ t ∈ rest.map (fun kv => mkWBTable kv.2 (fetch kv.1)), wfTable t := by
        intro t ht
        obtain ⟨kv, hkv, hke⟩ := List.mem_map.mp ht
        rw [← hke]
        exact mkWBTable_wf (hne kv (List.mem_cons_of_mem kv0 hkv))
      have hM_wf : wfTable ((rest.map (fun kv => mkWBTable kv.2 (fetch kv.1))).foldl
          mergeOuter (mkWBTable kv0.2 (fetch kv0.1))) := fold_wf hA_wf hts_wf
      have hM_cols : ((rest.map (fun kv => mkWBTable kv.2 (fetch kv.1))).foldl
          mergeOuter (mkWBTable kv0.2 (fetch kv0.1))).cols = wbColOrder (kv0 :: rest) := by
        rw [fold_cols, mkWBTable_cols (hne kv0 (List.mem_cons_self kv0 rest)),
          tables_flat_names fetch rest (fun kv hkv => hne kv (List.mem_cons_of_mem kv0 hkv))]
        rfl
      have htbl_none : ∀ j, j < (kv0 :: rest).length → j ≠ i →
          keyFilter (mkWBTable ((kv0 :: rest).getD j ([], [])).2
            (fetch ((kv0 :: rest).getD j ([], [])).1)).rows
            [Cell.str c, Cell.str i3, Cell.int y] = [] := by
        intro j hj hji
        rw [mkWBTable_keyFilter, hothers j hj hji]
        rfl
      obtain ⟨krow, hMkey, hkrow3, hkrow2, hnull⟩ :
          ∃ krow,
            keyFilter ((rest.map (fun kv => mkWBTable kv.2 (fetch kv.1))).foldl
              mergeOuter (mkWBTable kv0.2 (fetch kv0.1))).rows
              [Cell.str c, Cell.str i3, Cell.int y] = [krow]
            ∧ krow.take 3 = [Cell.str c, Cell.str i3, Cell.int y]
            ∧ krow.getD 2 Cell.null = Cell.int y
            ∧ ∀ j, j < (kv0 :: rest).length → j ≠ i →
                krow.getD (3 + j) Cell.null = Cell.null := by
        by_cases hi0 : i = 0
        · subst hi0
          obtain ⟨rstar, hrs⟩ := List.length_eq_one.mp huniq
          rw [show ((kv0 :: rest).getD 0 ([], [])) = kv0 from rfl] at hrs
          have hrk : recKey rstar = [Cell.str c, Cell.str i3, Cell.int y] := by
            have hm : rstar ∈ (fetch kv0.1).filter
                (fun r => recKey r == [Cell.str c, Cell.str i3, Cell.int y]) := by
              rw [hrs]
              exact List.mem_singleton.mpr rfl
            have := (List.mem_filter.mp hm).2
            simpa using this
          have hA_key : keyFilter (mkWBTable kv0.2 (fetch kv0.1)).rows
              [Cell.str c, Cell.str i3, Cell.int y] = [mkWBRow rstar] := by
            rw [mkWBTable_keyFilter, hrs]
            rfl
          have hts_none : ∀ t ∈ rest.map (fun kv => mkWBTable kv.2 (fetch kv.1)),
              keyFilter t.rows [Cell.str c, Cell.str i3, Cell.int y] = [] := by
            intro t ht
            obtain ⟨jr, hjr, hje⟩ := List.mem_iff_getElem.mp ht
            have hjr2 : jr < rest.length := by simpa using hjr
            rw [List.getElem_map] at hje
            subst hje
            have hn := htbl_none (jr + 1)
              (by simpa using Nat.succ_lt_succ hjr2) (by omega)
            rwa [show ((kv0 :: rest).getD (jr + 1) ([], [])) = rest[jr] from by
              rw [List.getD_cons_succ]
              exact List.getD_eq_getElem _ _ hjr2] at hn
          have hMkey := fold_keyFilter_carry hA_wf hts_wf hA_key hts_none
          have hlen4 : (mkWBRow rstar).length = 4 := rfl
          refine ⟨mkWBRow rstar ++ List.replicate
            (((rest.map (fun kv => mkWBTable kv.2 (fetch kv.1))).flatMap
              (fun t => t.cols.drop 3)).length) Cell.null, hMkey, ?_, ?_, ?_⟩
          · rw [List.take_append_of_le_length (by omega), mkWBRow_take3, hrk]
          · rw [List.getD_append _ _ _ _ (by omega)]
            calc (mkWBRow rstar).getD 2 Cell.null
                = (recKey rstar).getD 2 Cell.null := rfl
              _ = ([Cell.str c, Cell.str i3, Cell.int y]).getD 2 Cell.null := by rw [hrk]
              _ = Cell.int y := rfl
          · intro j hj hji
            rw [List.getD_append_right _ _ _ _ (by omega)]
            exact getD_replicate_null _ _
        · have hi1 : 1 ≤ i := Nat.one_le_iff_ne_zero.mpr hi0
          have hn1 : i < rest.length + 1 := by simpa using hi
          have hidx : i - 1 < rest.length := by omega
          have hieq : i - 1 + 1 = i := by omega
          have hdecomp : rest = rest.take (i - 1) ++ rest[i - 1] :: rest.drop i := by
            conv_lhs => rw [← List.take_append_drop (i - 1) rest]
            rw [List.drop_eq_getElem_cons hidx, hieq]
          -- the unique-key record of indicator i
          obtain ⟨rstar, hrs⟩ := List.length_eq_one.mp huniq
          have hgdi : ((kv0 :: rest).getD i ([], [])) = rest[i - 1] := by
            cases i with
            | zero => exact absurd rfl hi0
            | succ n =>
                rw [List.getD_cons_succ]
                exact List.getD_eq_getElem _ _ (by omega)
          rw [hgdi] at hrs
          have hrk : recKey rstar = [Cell.str c, Cell.str i3, Cell.int y] := by
            have hm : rstar ∈ (fetch (rest[i - 1]).1).filter
                (fun r => recKey r == [Cell.str c, Cell.str i3, Cell.int y]) := by
              rw [hrs]
              exact List.mem_singleton.mpr rfl
            have := (List.mem_filter.mp hm).2
            simpa using this
          have htake_wf : ∀ t ∈ (rest.take (i - 1)).map
              (fun kv => mkWBTable kv.2 (fetch kv.1)), wfTable t := by
            intro t ht
            obtain ⟨kv, hkv, hke⟩ := List.mem_map.mp ht
            rw [← hke]
            exact mkWBTable_wf (hne kv
              (List.mem_cons_of_mem kv0 (List.mem_of_mem_take hkv)))
          have htake_none : ∀ t ∈ (rest.take (i - 1)).map
              (fun kv => mkWBTable kv.2 (fetch kv.1)),
              keyFilter t.rows [Cell.str c, Cell.str i3, Cell.int y] = [] := by
            intro t ht
            obtain ⟨jr, hjr, hje⟩ := List.mem_iff_getElem.mp ht
            have hjr2 : jr < (rest.take (i - 1)).length := by simpa using hjr
            have hjr3 : jr < i - 1 := by
              rw [List.length_take] at hjr2
              omega
            rw [List.getElem_map] at hje
            rw [List.getElem_take] at hje
            subst hje
            have hn := htbl_none (jr + 1)
              (by simpa using Nat.succ_lt_succ (by omega : jr < rest.length))
              (by omega)
            rwa [show ((kv0 :: rest).getD (jr + 1) ([], [])) = rest[jr] from by
              rw [List.getD_cons_succ]
              exact List.getD_eq_getElem _ _ (by omega)] at hn
          have hdrop_wf : ∀ t ∈ (rest.drop i).map
              (fun kv => mkWBTable kv.2 (fetch kv.1)), wfTable t := by
            intro t ht
            obtain ⟨kv, hkv, hke⟩ := List.mem_map.mp ht
            rw [← hke]
            exact mkWBTable_wf (hne kv
              (List.mem_cons_of_mem kv0 (List.mem_of_mem_drop hkv)))
          have hdrop_none : ∀ t ∈ (rest.drop i).map
              (fun kv => mkWBTable kv.2 (fetch kv.1)),
              keyFilter t.rows [Cell.str c, Cell.str i3, Cell.int y] = [] := by
            intro t ht
            obtain ⟨jr, hjr, hje⟩ := List.mem_iff_getElem.mp ht
            have hjr2 : jr < (rest.drop i).length := by simpa using hjr
            have hjr3 : i + jr < rest.length := by
              rw [List.length_drop] at hjr2
              omega
            rw [List.getElem_map] at hje
            rw [List.getElem_drop] at hje
            subst hje
            have hn := htbl_none (i + jr + 1)
              (by simpa using Nat.succ_lt_succ hjr3) (by omega)
            rwa [show ((kv0 :: rest).getD (i + jr + 1) ([], [])) = rest[i + jr] from by
              rw [List.getD_cons_succ]
              exact List.getD_eq_getElem _ _ hjr3] at hn
          have hA_none : keyFilter (mkWBTable kv0.2 (fetch kv0.1)).rows
              [Cell.str c, Cell.str i3, Cell.int y] = [] :=
            htbl_none 0 (by simp) (by omega)
          have hA1_wf := fold_wf hA_wf htake_wf
          have hA1_none := fold_keyFilter_none hA_wf htake_wf hA_none htake_none
          have ht'_wf : wfTable (mkWBTable (rest[i - 1]).2 (fetch (rest[i - 1]).1)) :=
            mkWBTable_wf (hne _ (List.mem_cons_of_mem kv0 (List.getElem_mem _)))
          have ht'_key : keyFilter (mkWBTable (rest[i - 1]).2
              (fetch (rest[i - 1]).1)).rows [Cell.str c, Cell.str i3, Cell.int y]
              = [mkWBRow rstar] := by
            rw [mkWBTable_keyFilter, hrs]
            rfl
          have hmerge := merge_keyFilter_right (wfTable_three hA1_wf)
            (wfTable_three ht'_wf) hA1_none ht'_key
          have hA1_cols_len : ((((rest.take (i - 1)).map
              (fun kv => mkWBTable kv.2 (fetch kv.1))).foldl mergeOuter
              (mkWBTable kv0.2 (fetch kv0.1))).cols.length) = 3 + i := by
            rw [fold_cols, List.length_append,
              mkWBTable_cols (hne kv0 (List.mem_cons_self kv0 rest)),
              tables_flat_names fetch (rest.take (i - 1))
                (fun kv hkv => hne kv
                  (List.mem_cons_of_mem kv0 (List.mem_of_mem_take hkv))),
              List.length_map, List.length_take]
            simp
            omega
          have hMkey2 := fold_keyFilter_carry
            (mergeOuter_wf hA1_wf ht'_wf) hdrop_wf hmerge hdrop_none
          have hMeq : (rest.map (fun kv => mkWBTable kv.2 (fetch kv.1))).foldl
              mergeOuter (mkWBTable kv0.2 (fetch kv0.1))
              = ((rest.drop i).map (fun kv => mkWBTable kv.2 (fetch kv.1))).foldl
                mergeOuter (mergeOuter
                  (((rest.take (i - 1)).map (fun kv => mkWBTable kv.2 (fetch kv.1))).foldl
                    mergeOuter (mkWBTable kv0.2 (fetch kv0.1)))
                  (mkWBTable (rest[i - 1]).2 (fetch (rest[i - 1]).1))) := by
            conv_lhs => rw [hdecomp]
            rw [List.map_append, List.map_cons, List.foldl_append, List.foldl_cons]
          refine ⟨(mkWBRow rstar).take 3 ++ List.replicate
              ((((rest.take (i - 1)).map (fun kv => mkWBTable kv.2 (fetch kv.1))).foldl
                mergeOuter (mkWBTable kv0.2 (fetch kv0.1))).cols.length - 3) Cell.null
              ++ (mkWBRow rstar).drop 3
              ++ List.replicate
                (((rest.drop i).map (fun kv => mkWBTable kv.2 (fetch kv.1))).flatMap
                  (fun t => t.cols.drop 3)).length Cell.null, ?_, ?_, ?_, ?_⟩
          · rw [hMeq]
            exact hMkey2
          · rw [mkWBRow_take3, hrk]
            rw [List.take_append_of_le_length (by
              rw [List.length_append, List.length_append]
              simp
              omega)]
            rw [List.take_append_of_le_length (by
              rw [List.length_append]
              simp)]
            rw [List.take_append_of_le_length (by simp)]
            rfl
          · rw [mkWBRow_take3, hrk]
            rw [List.getD_append _ _ _ _ (by
              rw [List.length_append, List.length_append]
              simp
              omega)]
            rw [List.getD_append _ _ _ _ (by
              rw [List.length_append]
              simp
              omega)]
            rw [List.getD_append _ _ _ _ (by simp)]
            rfl
          · intro j hj hji
            rw [mkWBRow_take3, hrk, hA1_cols_len]
            have h3i : (3 : Nat) + i - 3 = i := by omega
            rw [h3i]
            by_cases hjlt : j < i
            · rw [List.getD_append _ _ _ _ (by
                rw [List.length_append, List.length_append, List.length_replicate]
                simp
                omega)]
              rw [List.getD_append _ _ _ _ (by
                rw [List.length_append, List.length_replicate]
                simp
                omega)]
              rw [List.getD_append_right _ _ _ _ (by simp)]
              have : (3 : Nat) + j - ([Cell.str c, Cell.str i3, Cell.int y]).length
                  = j := by simp
              rw [this]
              exact getD_replicate_null _ _
            · have hjgt : i < j := by omega
              rw [List.getD_append_right _ _ _ _ (by
                rw [List.length_append, List.length_append, List.length_replicate]
                have : (mkWBRow rstar).drop 3 = [rstar.value] := rfl
                rw [this]
                simp
                omega)]
              exact getD_replicate_null _ _
      -- common tail: the year filter keeps the row, the reorder is the identity
      have hYnotin : ¬ nm "Year" ∈ (kv0 :: rest).map (fun kv => kv.2) := by
        have h1 := (List.nodup_cons.mp hnd).2
        have h2b := (List.nodup_cons.mp h1).2
        exact (List.nodup_cons.mp h2b).1
      have hcell : cellAt ((rest.map (fun kv => mkWBTable kv.2 (fetch kv.1))).foldl
          mergeOuter (mkWBTable kv0.2 (fetch kv0.1))).cols krow (nm "Year")
          = Cell.int y := by
        unfold cellAt
        rw [hM_cols]
        rw [show wbColOrder (kv0 :: rest)
          = [nm "Country", nm "ISO3", nm "Year"] ++ (kv0 :: rest).map (fun kv => kv.2)
          from rfl]
        rw [colIdxs_wb_year hYnotin]
        exact hkrow2
      have hlenM := hM_wf.2.2
      have hF1 := @optStart_keyFilter (nm "Year") start_year _ _ _ hlenM hMkey
        (fun v hv => by
          rw [hcell]
          show geYearPred v (Cell.int y) = true
          simp [geYearPred]
          exact hys v hv)
      have hF1len := @optStartFilter_len (nm "Year") start_year
        ((rest.map (fun kv => mkWBTable kv.2 (fetch kv.1))).foldl
          mergeOuter (mkWBTable kv0.2 (fetch kv0.1))) hlenM
      have hF1cols := optStartFilter_cols (nm "Year") start_year
        ((rest.map (fun kv => mkWBTable kv.2 (fetch kv.1))).foldl
          mergeOuter (mkWBTable kv0.2 (fetch kv0.1)))
      have hF2 := @optEnd_keyFilter (nm "Year") end_year _ _ _ hF1len hF1
        (fun v hv => by
          rw [hF1cols, hcell]
          show leYearPred v (Cell.int y) = true
          simp [leYearPred]
          exact hye v hv)
      have hF2cols : (optEndFilter (nm "Year") end_year
          (optStartFilter (nm "Year") start_year
            ((rest.map (fun kv => mkWBTable kv.2 (fetch kv.1))).foldl
              mergeOuter (mkWBTable kv0.2 (fetch kv0.1))))).cols
          = wbColOrder (kv0 :: rest) := by
        rw [optEndFilter_cols, optStartFilter_cols, hM_cols]
      have hF2rows_wf : ∀ r ∈ (optEndFilter (nm "Year") end_year
          (optStartFilter (nm "Year") start_year
            ((rest.map (fun kv => mkWBTable kv.2 (fetch kv.1))).foldl
              mergeOuter (mkWBTable kv0.2 (fetch kv0.1))))).rows,
          r.length = (optEndFilter (nm "Year") end_year
            (optStartFilter (nm "Year") start_year
              ((rest.map (fun kv => mkWBTable kv.2 (fetch kv.1))).foldl
                mergeOuter (mkWBTable kv0.2 (fetch kv0.1))))).cols.length := by
        intro r hr
        have hrM := optStartFilter_mem (optEndFilter_mem hr)
        rw [optEndFilter_cols, optStartFilter_cols]
        exact hM_wf.1 r hrM
      have hunfold : get_data_WB (kv0 :: rest) fetch start_year end_year
          = selectPresent
              (optEndFilter (nm "Year") end_year
                (optStartFilter (nm "Year") start_year
                  ((rest.map (fun kv => mkWBTable kv.2 (fetch kv.1))).foldl
                    mergeOuter (mkWBTable kv0.2 (fetch kv0.1)))))
              (wbColOrder (kv0 :: rest)) := rfl
      have hout : get_data_WB (kv0 :: rest) fetch start_year end_year
          = optEndFilter (nm "Year") end_year
            (optStartFilter (nm "Year") start_year
              ((rest.map (fun kv => mkWBTable kv.2 (fetch kv.1))).foldl
                mergeOuter (mkWBTable kv0.2 (fetch kv0.1)))) := by
        rw [hunfold, ← hF2cols]
        exact selectPresent_self (by rw [hF2cols]; exact hnd) hF2rows_wf
      refine ⟨?_, ?_, ?_⟩
      · rw [hout]
        exact hF2cols
      · rw [hout, hF2]
        rfl
      · intro r hr j hj hji
        rw [hout, hF2] at hr
        rw [List.mem_singleton.mp hr]
        exact hnull j hj hji

theorem claim_C5_witness :
    (get_data_WB [(nm "A", nm "IndA"), (nm "B", nm "IndB")]
        (fun s => if s = nm "A"
          then [⟨2010, Cell.int 1, nm "Chad", some (nm "TCD"), nm "TD"⟩]
          else [⟨2011, Cell.int 2, nm "Chad", some (nm "TCD"), nm "TD"⟩])
        none none).cols = wbColOrder [(nm "A", nm "IndA"), (nm "B", nm "IndB")]
    ∧ (keyFilter (get_data_WB [(nm "A", nm "IndA"), (nm "B", nm "IndB")]
        (fun s => if s = nm "A"
          then [⟨2010, Cell.int 1, nm "Chad", some (nm "TCD"), nm "TD"⟩]
          else [⟨2011, Cell.int 2, nm "Chad", some (nm "TCD"), nm "TD"⟩])
        none none).rows
        [Cell.str (nm "Chad"), Cell.str (nm "TCD"), Cell.int 2010]).length = 1
    ∧ ∀ r ∈ keyFilter (get_data_WB [(nm "A", nm "IndA"), (nm "B", nm "IndB")]
        (fun s => if s = nm "A"
          then [⟨2010, Cell.int 1, nm "Chad", some (nm "TCD"), nm "TD"⟩]
          else [⟨2011, Cell.int 2, nm "Chad", some (nm "TCD"), nm "TD"⟩])
        none none).rows
        [Cell.str (nm "Chad"), Cell.str (nm "TCD"), Cell.int 2010],
      ∀ j, j < ([(nm "A", nm "IndA"), (nm "B", nm "IndB")] : List (Str × Str)).length →
        j ≠ 0 → r.getD (3 + j) Cell.null = Cell.null :=
  claim_C5_wb_outer_join
    [(nm "A", nm "IndA"), (nm "B", nm "IndB")]
    (fun s => if s = nm "A"
      then [⟨2010, Cell.int 1, nm "Chad", some (nm "TCD"), nm "TD"⟩]
      else [⟨2011, Cell.int 2, nm "Chad", some (nm "TCD"), nm "TD"⟩])
    none none (nm "Chad") (nm "TCD") 2010 0
    (by decide)
    (by decide)
    (by decide)
    (by decide)
    (by decide)
    (by
      intro j hj hji
      have hj2 : j < 2 := hj
      interval_cases j
      · exact absurd rfl hji
      · decide)
    (fun v hv => nomatch hv)
    (fun v hv => nomatch hv)

end DataHandler
